import Mathlib

/-!
Verification of the task orchestration and cancellation subsystem of
FB_ADS_BACKEND (src/app.py), as a shallow embedding in Lean 4.

The Python module keeps three pieces of process-wide mutable state
(app.py lines 50-53): the dict upload_tasks, the dict process_pids and
the set canceled_tasks.  Dicts are modelled as association lists whose
update overwrites in place (mirroring CPython's insertion-ordered dicts
with unique keys), and the set as a duplicate-free list.  Stateful
functions are modelled as explicit state transformers; a Python function
that can raise returns an Except value.
-/

namespace FBAds

abbrev TaskId := String
abbrev Pid := Nat

/-- Python-dict lookup on an association list (keys are unique because
insertion overwrites in place). -/
def dictGet {κ α : Type} [DecidableEq κ] (d : List (κ × α)) (k : κ) : Option α :=
  match d with
  | [] => none
  | (k', v) :: rest => if k' = k then some v else dictGet rest k

/-- Python-dict lookup with a default, modelling d.get(k, dflt). -/
def dictGetD {κ α : Type} [DecidableEq κ] (d : List (κ × α)) (k : κ) (dflt : α) : α :=
  (dictGet d k).getD dflt

/-- Python-dict membership test, modelling k in d. -/
def dictHasKey {κ α : Type} [DecidableEq κ] (d : List (κ × α)) (k : κ) : Bool :=
  (dictGet d k).isSome

/-- Python-dict assignment d[k] = v: overwrite the existing entry in place,
or append a fresh one. -/
def dictSet {κ α : Type} [DecidableEq κ] (d : List (κ × α)) (k : κ) (v : α) :
    List (κ × α) :=
  match d with
  | [] => [(k, v)]
  | (k', v') :: rest => if k' = k then (k, v) :: rest else (k', v') :: dictSet rest k v

/-- Python-dict d.pop(k, None): remove the entry for k when present. -/
def dictPop {κ α : Type} [DecidableEq κ] (d : List (κ × α)) (k : κ) : List (κ × α) :=
  match d with
  | [] => []
  | (k', v') :: rest => if k' = k then rest else (k', v') :: dictPop rest k

/-- Python-set add: a set never holds duplicates, so adding an element that
is already present leaves the set unchanged. -/
def setAdd (s : List TaskId) (t : TaskId) : List TaskId :=
  if t ∈ s then s else s ++ [t]

/-- Python exceptions that the orchestration code can raise or handle. -/
inductive PyErr where
  | taskCanceled (tid : TaskId)
  | nameErr (missing : String)
  | attributeErr (descr : String)
  | typeErr (descr : String)
  | keyErr
  | indexErr
  deriving Repr, DecidableEq

/-- The module-level mutable state of app.py (lines 50-53): canceled_tasks
(a set of task ids), upload_tasks (task id to bool) and process_pids
(task id to list of registered subprocess pids).  All three are accessed
under the single tasks_lock, so a lock-protected block is modelled as one
atomic state transformation. -/
structure Registries where
  canceledTasks : List TaskId
  uploadTasks : List (TaskId × Bool)
  processPids : List (TaskId × List Pid)
  deriving Repr, DecidableEq

/-- Model of check_cancellation (app.py lines 89-93): under tasks_lock, if
the task id is in canceled_tasks it is removed from the set and
TaskCanceledException is raised; otherwise the call returns normally and
changes nothing. -/
def check_cancellation (tid : TaskId) (st : Registries) :
    Except PyErr Unit × Registries :=
  if tid ∈ st.canceledTasks then
    (Except.error (PyErr.taskCanceled tid),
      { st with canceledTasks := st.canceledTasks.erase tid })
  else
    (Except.ok (), st)

/-- Model of the state change of cleanup_task (app.py lines 1477-1481): under
tasks_lock, process_pids.pop(task_id, None).  The temporary-directory removal
is file-system work outside the modelled state.  Note that neither
upload_tasks nor canceled_tasks is touched. -/
def cleanup_task (tid : TaskId) (st : Registries) : Registries :=
  { st with processPids := dictPop st.processPids tid }

/-- Model of the cancel_task endpoint (app.py lines 1497-1519).  Under
tasks_lock: the id is added to canceled_tasks; then, only if the id is a key
of upload_tasks, upload_tasks[id] is set to False, os.kill(pid, SIGTERM) is
attempted for every pid registered for that task (a ProcessLookupError from a
process that already exited is swallowed by the inner try/except), and the
task's process_pids entry is removed.  The kill argument gives the outcome of
each os.kill attempt (error means ProcessLookupError); the returned list
records the pids to which a SIGTERM was sent, in order. -/
def cancel_task (kill : Pid → Except Unit Unit) (tid : TaskId) (st : Registries) :
    Registries × List Pid :=
  let st1 : Registries := { st with canceledTasks := setAdd st.canceledTasks tid }
  if dictHasKey st1.uploadTasks tid then
    let pids := dictGetD st1.processPids tid []
    -- each kill attempt is made; its Except outcome is discarded (swallowed)
    let _ := pids.map kill
    ({ st1 with
        uploadTasks := dictSet st1.uploadTasks tid false,
        processPids := dictPop st1.processPids tid }, pids)
  else
    (st1, [])

/-- Outcome of one polling attempt of is_video_ready: the api_get call
either reports status ready, reports some other status, or raises a
transient exception (which the source logs and treats like not-ready). -/
inductive PollOutcome where
  | ready
  | notReady
  | transientErr (descr : String)
  deriving Repr, DecidableEq

/-- Observable trace of one is_video_ready run: the boolean result, the
sleep durations performed in order, and how many times the readiness check
was invoked. -/
structure PollTrace where
  result : Bool
  sleeps : List Nat
  checksMade : Nat
  deriving Repr, DecidableEq

/-- The retry loop of is_video_ready (app.py lines 457-467): for attempt in
range(1, max_retries + 1), the check runs inside a try/except (an exception
is logged and falls through like a not-ready status); on ready the function
returns True at once without sleeping; otherwise it sleeps the current delay
and doubles it.  Note the sleep follows every unsuccessful attempt, the last
one included. -/
def is_video_ready_loop (check : Nat → PollOutcome) (attempt remaining delay : Nat) :
    PollTrace :=
  match remaining with
  | 0 => ⟨false, [], 0⟩
  | r + 1 =>
    match check attempt with
    | PollOutcome.ready => ⟨true, [], 1⟩
    | _ =>
      let rest := is_video_ready_loop check (attempt + 1) r (delay * 2)
      ⟨rest.result, delay :: rest.sleeps, rest.checksMade + 1⟩

/-- Model of is_video_ready (app.py lines 455-469).  The check argument gives
the outcome of the attempt-th api_get (attempts are 1-indexed as in the
source); delays are naturals (the source defaults are max_retries=10,
initial_delay=10, and the backoff multiplier is the hard-coded delay *= 2). -/
def is_video_ready (check : Nat → PollOutcome) (max_retries initial_delay : Nat) :
    PollTrace :=
  is_video_ready_loop check 1 max_retries initial_delay

/-! ### JSON values and the model of Python json.loads

emit_error and parse_age_range feed strings to json.loads.  JSON values are
modelled with numbers kept as their raw numeral text (their numeric value is
never consumed by the modelled code).  The parser below follows Python's
json.loads on str input: standard JSON with the Python extensions NaN,
Infinity and -Infinity; strict strings (unescaped control characters
rejected, surrogate pairs in \uXXXX escapes combined); duplicate object keys
resolved later-wins; trailing input rejected. -/

def quoteChar : Char := Char.ofNat 34

def backslashChar : Char := Char.ofNat 92

def lbraceChar : Char := Char.ofNat 123

def rbraceChar : Char := Char.ofNat 125

def lbrackChar : Char := Char.ofNat 91

def rbrackChar : Char := Char.ofNat 93

/-- JSON whitespace accepted by Python's json decoder: space, tab, newline,
carriage return. -/
def isJsonWs (c : Char) : Bool :=
  c = Char.ofNat 32 || c = Char.ofNat 9 || c = Char.ofNat 10 || c = Char.ofNat 13

/-- ASCII whitespace matched by the regex class backslash-s: space, tab,
newline, carriage return, form feed, vertical tab. -/
def isPyRegexWs (c : Char) : Bool :=
  c = Char.ofNat 32 || c = Char.ofNat 9 || c = Char.ofNat 10 || c = Char.ofNat 13 ||
    c = Char.ofNat 12 || c = Char.ofNat 11

def dropJsonWs (cs : List Char) : List Char := cs.dropWhile isJsonWs

/-- Literal-prefix test used by the scanner. -/
def litMatch (lit : String) (cs : List Char) : Bool := lit.data.isPrefixOf cs

/-- A JSON value as decoded by Python's json.loads; numbers keep their raw
numeral text. -/
inductive JVal where
  | jnull
  | jbool (b : Bool)
  | jnum (raw : String)
  | jstr (s : String)
  | jarr (elems : List JVal)
  | jobj (entries : List (String × JVal))

def hexVal (c : Char) : Option Nat :=
  if c.isDigit then some (c.toNat - 48)
  else if 97 ≤ c.toNat && c.toNat ≤ 102 then some (c.toNat - 87)
  else if 65 ≤ c.toNat && c.toNat ≤ 70 then some (c.toNat - 55)
  else none

def parseHex4 (cs : List Char) : Option (Nat × List Char) :=
  match cs with
  | a :: b :: c :: d :: rest =>
    match hexVal a, hexVal b, hexVal c, hexVal d with
    | some x, some y, some z, some w => some (((x * 16 + y) * 16 + z) * 16 + w, rest)
    | _, _, _, _ => none
  | _ => none

/-- Body of a JSON string after the opening quote, with Python's strict
decoding: plain characters up to the closing quote, raw control characters
rejected, escape sequences decoded, and a high/low surrogate escape pair
combined into one scalar (a lone surrogate, which Python would keep as an
unpaired code unit, has no Lean Char counterpart and decodes through
Char.ofNat's fallback). -/
def parseStringBody : Nat → List Char → Option (List Char × List Char)
  | 0, _ => none
  | _, [] => none
  | fuel + 1, c :: rest =>
    if c = quoteChar then some ([], rest)
    else if c = backslashChar then
      match rest with
      | [] => none
      | e :: rest2 =>
        if e = quoteChar || e = backslashChar || e = Char.ofNat 47 then
          (parseStringBody fuel rest2).map (fun p => (e :: p.1, p.2))
        else if e = Char.ofNat 98 then
          (parseStringBody fuel rest2).map (fun p => (Char.ofNat 8 :: p.1, p.2))
        else if e = Char.ofNat 102 then
          (parseStringBody fuel rest2).map (fun p => (Char.ofNat 12 :: p.1, p.2))
        else if e = Char.ofNat 110 then
          (parseStringBody fuel rest2).map (fun p => (Char.ofNat 10 :: p.1, p.2))
        else if e = Char.ofNat 114 then
          (parseStringBody fuel rest2).map (fun p => (Char.ofNat 13 :: p.1, p.2))
        else if e = Char.ofNat 116 then
          (parseStringBody fuel rest2).map (fun p => (Char.ofNat 9 :: p.1, p.2))
        else if e = Char.ofNat 117 then
          match parseHex4 rest2 with
          | none => none
          | some (n, rest3) =>
            if 0xD800 ≤ n && n ≤ 0xDBFF then
              match rest3 with
              | b1 :: u1 :: rest4 =>
                if b1 = backslashChar && u1 = Char.ofNat 117 then
                  match parseHex4 rest4 with
                  | some (m, rest5) =>
                    if 0xDC00 ≤ m && m ≤ 0xDFFF then
                      (parseStringBody fuel rest5).map (fun p =>
                        (Char.ofNat (0x10000 + (n - 0xD800) * 0x400 + (m - 0xDC00)) :: p.1,
                          p.2))
                    else
                      (parseStringBody fuel rest4).map (fun p =>
                        (Char.ofNat n :: Char.ofNat m :: p.1, p.2))
                  | none => none
                else (parseStringBody fuel rest3).map (fun p => (Char.ofNat n :: p.1, p.2))
              | _ => (parseStringBody fuel rest3).map (fun p => (Char.ofNat n :: p.1, p.2))
            else (parseStringBody fuel rest3).map (fun p => (Char.ofNat n :: p.1, p.2))
        else none
    else if c.toNat < 32 then none
    else (parseStringBody fuel rest).map (fun p => (c :: p.1, p.2))

/-- Optional fraction part of a JSON number: a dot must be followed by at
least one digit; none signals a malformed number. -/
def parseFrac (cs : List Char) : Option (List Char × List Char) :=
  match cs with
  | c :: rest =>
    if c = Char.ofNat 46 then
      let ds := rest.takeWhile Char.isDigit
      if ds.isEmpty then none else some (c :: ds, rest.drop ds.length)
    else some ([], cs)
  | [] => some ([], [])

/-- Optional exponent part of a JSON number. -/
def parseExp (cs : List Char) : Option (List Char × List Char) :=
  match cs with
  | c :: rest =>
    if c = Char.ofNat 101 || c = Char.ofNat 69 then
      let (sgn, rest1) :=
        match rest with
        | s :: r2 => if s = Char.ofNat 43 || s = Char.ofNat 45 then ([s], r2) else ([], rest)
        | [] => (([] : List Char), rest)
      let ds := rest1.takeWhile Char.isDigit
      if ds.isEmpty then none else some (c :: (sgn ++ ds), rest1.drop ds.length)
    else some ([], cs)
  | [] => some ([], [])

/-- A JSON number token: optional minus, an integer part without leading
zeros, optional fraction and exponent.  Returns the raw token and the rest. -/
def parseNumberTok (cs : List Char) : Option (List Char × List Char) :=
  let sgnSplit : List Char × List Char :=
    match cs with
    | c :: rest => if c = Char.ofNat 45 then ([c], rest) else ([], cs)
    | [] => ([], [])
  match sgnSplit.2 with
  | d :: rest =>
    if d = Char.ofNat 48 then
      match parseFrac rest with
      | none => none
      | some (ft, r1) =>
        match parseExp r1 with
        | none => none
        | some (et, r2) => some (sgnSplit.1 ++ [d] ++ ft ++ et, r2)
    else if d.isDigit then
      let ds := (d :: rest).takeWhile Char.isDigit
      let r0 := (d :: rest).drop ds.length
      match parseFrac r0 with
      | none => none
      | some (ft, r1) =>
        match parseExp r1 with
        | none => none
        | some (et, r2) => some (sgnSplit.1 ++ ds ++ ft ++ et, r2)
    else none
  | [] => none

mutual

/-- One JSON value, preceded by optional whitespace. -/
def parseValue : Nat → List Char → Option (JVal × List Char)
  | 0, _ => none
  | fuel + 1, cs0 =>
    match dropJsonWs cs0 with
    | [] => none
    | c :: rest =>
      if c = lbraceChar then
        let rest1 := dropJsonWs rest
        match rest1 with
        | d :: rest2 =>
          if d = rbraceChar then some (JVal.jobj [], rest2)
          else parseObjEntries fuel rest1 []
        | [] => none
      else if c = lbrackChar then
        let rest1 := dropJsonWs rest
        match rest1 with
        | d :: rest2 =>
          if d = rbrackChar then some (JVal.jarr [], rest2)
          else parseArrElems fuel rest1 []
        | [] => none
      else if c = quoteChar then
        match parseStringBody (rest.length + 1) rest with
        | some (content, rest2) => some (JVal.jstr (String.mk content), rest2)
        | none => none
      else if litMatch "true" (c :: rest) then some (JVal.jbool true, (c :: rest).drop 4)
      else if litMatch "false" (c :: rest) then some (JVal.jbool false, (c :: rest).drop 5)
      else if litMatch "null" (c :: rest) then some (JVal.jnull, (c :: rest).drop 4)
      else if litMatch "NaN" (c :: rest) then some (JVal.jnum "NaN", (c :: rest).drop 3)
      else if litMatch "Infinity" (c :: rest) then
        some (JVal.jnum "Infinity", (c :: rest).drop 8)
      else if litMatch "-Infinity" (c :: rest) then
        some (JVal.jnum "-Infinity", (c :: rest).drop 9)
      else
        match parseNumberTok (c :: rest) with
        | some (tok, rest2) => some (JVal.jnum (String.mk tok), rest2)
        | none => none

/-- Entries of a JSON object after the opening brace (nonempty case);
duplicate keys resolve later-wins, as in a Python dict. -/
def parseObjEntries : Nat → List Char → List (String × JVal) →
    Option (JVal × List Char)
  | 0, _, _ => none
  | fuel + 1, cs, acc =>
    match dropJsonWs cs with
    | c :: rest =>
      if c = quoteChar then
        match parseStringBody (rest.length + 1) rest with
        | some (key, rest2) =>
          match dropJsonWs rest2 with
          | d :: rest3 =>
            if d = Char.ofNat 58 then
              match parseValue fuel rest3 with
              | some (v, rest4) =>
                let acc' := dictSet acc (String.mk key) v
                match dropJsonWs rest4 with
                | e :: rest5 =>
                  if e = Char.ofNat 44 then parseObjEntries fuel rest5 acc'
                  else if e = rbraceChar then some (JVal.jobj acc', rest5)
                  else none
                | [] => none
              | none => none
            else none
          | [] => none
        | none => none
      else none
    | [] => none

/-- Elements of a JSON array after the opening bracket (nonempty case). -/
def parseArrElems : Nat → List Char → List JVal → Option (JVal × List Char)
  | 0, _, _ => none
  | fuel + 1, cs, acc =>
    match parseValue fuel cs with
    | some (v, rest) =>
      match dropJsonWs rest with
      | d :: rest2 =>
        if d = Char.ofNat 44 then parseArrElems fuel rest2 (acc ++ [v])
        else if d = rbrackChar then some (JVal.jarr (acc ++ [v]), rest2)
        else none
      | [] => none
    | none => none

end

/-- Model of json.loads on a str argument: one JSON document with optional
surrounding whitespace; trailing input is an error.  The fuel bound exceeds
any recursion depth reachable on the input. -/
def json_loads (s : String) : Option JVal :=
  match parseValue (2 * s.length + 4) s.data with
  | some (v, rest) => if (dropJsonWs rest).isEmpty then some v else none
  | none => none

/-- Longest prefix of the list ending at its last closing brace, used for the
greedy DOTALL group of the emit_error regex. -/
def lastCloseSplit (cs : List Char) : Option (List Char) :=
  match cs with
  | [] => none
  | c :: rest =>
    match lastCloseSplit rest with
    | some grp => some (c :: grp)
    | none => if c = rbraceChar then some [c] else none

/-- Model of the regex search in emit_error (app.py line 67), pattern
Response: followed by optional whitespace and a brace-delimited group, with
re.DOTALL.  Start positions are scanned left to right; where the literal
"Response:" is followed by (possibly empty) whitespace and an opening brace
and a closing brace occurs later, the capture group runs from that opening
brace to the last closing brace of the remaining string (greedy dot-star);
otherwise the scan moves on. -/
def findResponseJson : List Char → Option (List Char)
  | [] => none
  | c :: rest =>
    (if litMatch "Response:" (c :: rest) then
      let afterWs := ((c :: rest).drop 9).dropWhile isPyRegexWs
      match afterWs with
      | b :: _ => if b = lbraceChar then lastCloseSplit afterWs else none
      | [] => none
    else none).orElse (fun _ => findResponseJson rest)

def findResponseJsonStr (s : String) : Option String :=
  (findResponseJson s.data).map String.mk

/-- Python x.get(key, default): a dict lookup with a default; calling .get on
a value that is not a dict raises AttributeError (only a dict decoded from
JSON has .get). -/
def pyGetAttrDefault (v : JVal) (k : String) (dflt : JVal) : Except PyErr JVal :=
  match v with
  | JVal.jobj entries => Except.ok ((dictGet entries k).getD dflt)
  | _ => Except.error (PyErr.attributeErr "get")

def default_error_title : String := "Error"

def default_error_message : String := "An unknown error occurred."

/-- Model of emit_error (app.py lines 60-86): the title/message pair carried
by the emitted error event, or the exception the call raises.  The raw
message is searched for a Response: JSON body; if found and json.loads
succeeds, title and message are read from error.error_user_title and
error.error_user_msg with defaults (a json.JSONDecodeError is caught and
falls back to the raw message, as does a missing JSON body); the .get chain
raises AttributeError when the error field holds a non-dict value, and only
JSONDecodeError is caught, so that exception propagates to the caller. -/
def emit_error_payload (message : String) : Except PyErr (JVal × JVal) :=
  match findResponseJsonStr message with
  | none => Except.ok (JVal.jstr default_error_title, JVal.jstr message)
  | some grp =>
    match json_loads grp with
    | none => Except.ok (JVal.jstr default_error_title, JVal.jstr message)
    | some v => do
      let errField ← pyGetAttrDefault v "error" (JVal.jobj [])
      let title ← pyGetAttrDefault errField "error_user_title"
        (JVal.jstr default_error_title)
      let msg ← pyGetAttrDefault errField "error_user_msg"
        (JVal.jstr default_error_message)
      pure (title, msg)

/-- Python subscripting v[i] (nonnegative index) on a JSON-decoded value:
lists and strings index with IndexError when out of range, a dict raises
KeyError (its keys are strings, the subscript is an int), and any other
value raises TypeError. -/
def pySubscript (v : JVal) (i : Nat) : Except PyErr JVal :=
  match v with
  | JVal.jarr xs =>
    match xs.get? i with
    | some x => Except.ok x
    | none => Except.error PyErr.indexErr
  | JVal.jstr s =>
    match s.data.get? i with
    | some ch => Except.ok (JVal.jstr (String.mk [ch]))
    | none => Except.error PyErr.indexErr
  | JVal.jobj _ => Except.error PyErr.keyErr
  | _ => Except.error (PyErr.typeErr "not subscriptable")

/-- The default (18, 65) returned by parse_age_range when parsing fails (the
Python ints are rendered as JSON numerals here). -/
def age_default_pair : JVal × JVal := (JVal.jnum "18", JVal.jnum "65")

/-- Model of parse_age_range (app.py lines 255-260): json.loads the input and
return its first two elements; ValueError (which JSONDecodeError subclasses)
and IndexError are caught and yield the defaults (18, 65); any other
exception from the subscripts (TypeError, KeyError) propagates. -/
def parse_age_range (s : String) : Except PyErr (JVal × JVal) :=
  match json_loads s with
  | none => Except.ok age_default_pair
  | some v =>
    match pySubscript v 0 with
    | Except.error PyErr.indexErr => Except.ok age_default_pair
    | Except.error e => Except.error e
    | Except.ok a =>
      match pySubscript v 1 with
      | Except.error PyErr.indexErr => Except.ok age_default_pair
      | Except.error e => Except.error e
      | Except.ok b => Except.ok (a, b)

/-! ### Orchestration model

The background task of handle_create_campaign is modelled as a deterministic
interpreter over an environment describing the uploaded folders and the
remote collaborator, and a schedule giving the clock samples and the point
at which a concurrent cancel_task request fires.  The worker pool is
linearized: each submitted create_ad call runs to completion, in submission
order, before the collection loop consumes the futures in the same order (a
legal schedule of the pool, whose interaction with a concurrent cancel_task
call is captured by scheduler steps placed at every cancellation checkpoint,
the only reads of the shared canceled set). -/

/-- Events emitted through the socket, in order.  progress carries the
percent, the step counter rendered into the "step/total" string and the
total; errorEv is an event produced by emit_error (title and message);
errorRaw is a direct socketio error emission of str(exception) from the
handle_*_processing_error helpers. -/
inductive Ev where
  | progress (tid : TaskId) (percent : ℚ) (stepCount total : Nat)
  | errorEv (tid : TaskId) (title msg : JVal)
  | errorRaw (tid : TaskId) (message : String)
  | taskComplete (tid : TaskId)

/-- Run-time state of one orchestration run: the shared registries, the
events emitted so far, the pids signalled so far, the tqdm counter pbar.n,
the index of the next time.time() sample, the scheduler step counter, and
ghost instrumentation: how many checkpoints raised TaskCanceledException,
how many create_ad calls ran their body or its exception handler to the
end, and the clock values at which throttled progress events were emitted. -/
structure OrchSt where
  regs : Registries
  events : List Ev
  kills : List Pid
  pbarN : Nat
  clockIdx : Nat
  steps : Nat
  cancelsObserved : Nat
  adsFinished : Nat
  emitTimes : List ℚ

/-- External schedule of one run: the value returned by the i-th time.time()
call, the scheduler step (if any) just before which a concurrent cancel_task
request for this task fires (one request suffices for the modelled claims),
and the liveness of the pids that request signals. -/
structure Sched where
  clock : Nat → ℚ
  cancelAt : Option Nat
  kill : Pid → Except Unit Unit

/-- Advance the scheduler one step, firing the concurrent cancel_task
request if it is scheduled right before this step. -/
def schedTick (sched : Sched) (tid : TaskId) (st : OrchSt) : OrchSt :=
  let st' :=
    if sched.cancelAt = some st.steps then
      let r := cancel_task sched.kill tid st.regs
      { st with regs := r.1, kills := st.kills ++ r.2 }
    else st
  { st' with steps := st'.steps + 1 }

/-- A cancellation checkpoint inside the run: one scheduler step followed by
check_cancellation on the shared registries.  The ghost counter records a
raised (observed) cancellation. -/
def checkpoint (tid : TaskId) (sched : Sched) (st : OrchSt) :
    Except PyErr Unit × OrchSt :=
  let st1 := schedTick sched tid st
  match check_cancellation tid st1.regs with
  | (Except.error e, regs') =>
    (Except.error e,
      { st1 with regs := regs', cancelsObserved := st1.cancelsObserved + 1 })
  | (Except.ok _, regs') => (Except.ok (), { st1 with regs := regs' })

/-- Model of emit_progress (app.py lines 1377-1383): the progress event with
the given percent and the step field "stepCount/total". -/
def emit_progress (tid : TaskId) (percent : ℚ) (total stepCount : Nat)
    (st : OrchSt) : OrchSt :=
  { st with events := st.events ++ [Ev.progress tid percent stepCount total] }

/-- Model of emit_task_complete (app.py lines 1386-1388). -/
def emit_task_complete (tid : TaskId) (st : OrchSt) : OrchSt :=
  { st with events := st.events ++ [Ev.taskComplete tid] }

/-- One call of emit_error inside the run: on success the error event
carrying the computed payload is appended; the AttributeError the payload
computation can raise (see emit_error_payload) propagates to the caller. -/
def emit_error (tid : TaskId) (message : String) (st : OrchSt) :
    Except PyErr Unit × OrchSt :=
  match emit_error_payload message with
  | Except.ok p =>
    (Except.ok (), { st with events := st.events ++ [Ev.errorEv tid p.1 p.2] })
  | Except.error e => (Except.error e, st)

/-- One time.time() call: the next clock sample. -/
def timeNow (sched : Sched) (st : OrchSt) : ℚ × OrchSt :=
  (sched.clock st.clockIdx, { st with clockIdx := st.clockIdx + 1 })

/-- Python str(e) for the exceptions carried through the collection loops
(the exact rendering is opaque to the orchestration logic). -/
def pyStr : PyErr → String
  | PyErr.taskCanceled tid => "Task " ++ tid ++ " has been canceled"
  | PyErr.nameErr n => "name " ++ n ++ " is not defined"
  | PyErr.attributeErr d => "AttributeError: " ++ d
  | PyErr.typeErr d => "TypeError: " ++ d
  | PyErr.keyErr => "KeyError"
  | PyErr.indexErr => "IndexError"

/-- Model of update_progress (app.py lines 1214-1219): pbar.update(1) runs
and current_time = time.time() runs, but the throttle comparison then reads
last_update_time, a name that is only ever assigned as a local variable of
the sibling functions process_videos, process_images and
process_mixed_media, never in the enclosing handle_create_campaign scope
and never as a global; a nested function does not see the locals of a
sibling, so the read raises NameError on every call and the emission below
it is unreachable. -/
def update_progress (sched : Sched) (st : OrchSt) : Except PyErr Unit × OrchSt :=
  let st1 := { st with pbarN := st.pbarN + 1 }
  let t := timeNow sched st1
  (Except.error (PyErr.nameErr "last_update_time"), t.2)

/-- Model of update_progress_media (app.py lines 1451-1456): pbar.update(1);
then, if time.time() - last_update_time >= 0.5, the throttled progress event
with percent = processed/total*100 and step = processed is emitted.  The
last_update_time parameter is only read, never written back anywhere, so the
timestamp a caller holds stays the task start time forever.  The ghost
emitTimes log records the sampled clock value of each throttled emission.
(total is at least one whenever a completed unit reaches this code.) -/
def update_progress_media (tid : TaskId) (total processed : Nat)
    (lastUpdateTime : ℚ) (sched : Sched) (st : OrchSt) : OrchSt :=
  let st1 := { st with pbarN := st.pbarN + 1 }
  let t := timeNow sched st1
  if t.1 - lastUpdateTime ≥ 0.5 then
    let st2 := emit_progress tid ((processed : ℚ) / (total : ℚ) * 100) total processed t.2
    { st2 with emitTimes := st2.emitTimes ++ [t.1] }
  else t.2

/-- One media file submitted to create_ad.  The try-body never reaches the
image/video branch: its first statement (line 634) calls
generate_link_with_utm with one argument, but the one-parameter def at line
655 is shadowed at import time by the two-parameter def at line 867, so the
call raises TypeError — the config parameter is unbound — for every unit
regardless of the file.  No cancellation checkpoint inside the body ever
executes, so the body cannot raise TaskCanceledException, and no subprocess
runs, so the CalledProcessError/SIGTERM branch at lines 647-648 is
unreachable. -/
inductive UnitBody where
  | mediaFile

/-- The str(e) of the TypeError every create_ad body raises at line 634
(the CPython rendering quotes the parameter name; the quotes are elided
here — the orchestration only embeds the text into the error message). -/
def utmTypeErrText : String :=
  "generate_link_with_utm() missing 1 required positional argument: config"

/-- Model of create_ad (app.py lines 627-651) in the Single-image-or-video
format: the checkpoint at line 628 sits before the try block, so a
TaskCanceledException raised there propagates into the future; the body
always raises the generate_link_with_utm TypeError (see UnitBody), which is
caught at line 646 and reported through emit_error (whose own
AttributeError, if any, propagates out of the except handler); the except
TaskCanceledException branch at line 644 is dead here (see UnitBody). -/
def create_ad (tid : TaskId) (body : UnitBody) (sched : Sched) (st : OrchSt) :
    Except PyErr Unit × OrchSt :=
  match checkpoint tid sched st with
  | (Except.error e, st1) => (Except.error e, st1)
  | (Except.ok _, st1) =>
    match emit_error tid ("Error creating ad for task " ++ tid ++ ": " ++
        utmTypeErrText) st1 with
    | (Except.ok _, st2) => (Except.ok (), { st2 with adsFinished := st2.adsFinished + 1 })
    | (Except.error e, st2) => (Except.error e, st2)

/-- Worker phase of one ThreadPoolExecutor group (the executor.submit
comprehension): each submitted create_ad call runs, in submission order;
the returned list holds the future results in that (completion) order. -/
def run_workers (tid : TaskId) (units : List UnitBody) (sched : Sched) (st : OrchSt) :
    List (Except PyErr Unit) × OrchSt :=
  match units with
  | [] => ([], st)
  | u :: rest =>
    let r := create_ad tid u sched st
    let rr := run_workers tid rest sched r.2
    (r.1 :: rr.1, rr.2)

/-- Remote outcome of one create_ad_set call for a group. -/
inductive GroupRemote where
  | adSetCreated
  | adSetFails (excText : String)

/-- Model of create_ad_set (app.py lines 200-252) restricted to its
orchestration-visible behaviour: the checkpoint at line 201 sits before the
try and propagates; any exception of the body (parameter building or the
remote create) is caught at line 249, reported through emit_error with the
message "Error creating ad set: ..." and turned into a None return, upon
which every caller skips the group. -/
def create_ad_set (tid : TaskId) (outcome : GroupRemote) (sched : Sched) (st : OrchSt) :
    Except PyErr Bool × OrchSt :=
  match checkpoint tid sched st with
  | (Except.error e, st1) => (Except.error e, st1)
  | (Except.ok _, st1) =>
    match outcome with
    | GroupRemote.adSetCreated => (Except.ok true, st1)
    | GroupRemote.adSetFails excText =>
      match emit_error tid ("Error creating ad set: " ++ excText) st1 with
      | (Except.ok _, st2) => (Except.ok false, st2)
      | (Except.error e, st2) => (Except.error e, st2)

/-- One work group: the units resolved in its folder and the remote outcome
of its ad-set creation. -/
structure GroupEnv where
  units : List UnitBody
  remote : GroupRemote

/-- The ad_format configuration value steering process_video_files and
process_media_files (any value other than the two recognized ones makes
both branches fall through). -/
inductive AdFormat where
  | singleImageOrVideo
  | carousel
  | otherFormat

/-- Model of create_carousel_ad (app.py lines 771-808) as reached from the
group processors.  The checkpoint at line 772 sits before the try and
propagates.  Inside the try, the card loop reaches the checkpoint at line
781 for its first media file — a TaskCanceledException raised there is
caught by the except at line 805 and swallowed — and, when that passes,
builds the card by calling the async process_video_file/process_image_file
without awaiting it, so subscripting the resulting coroutine at line 796
raises TypeError, which the except at line 807 routes through handle_error
to emit_error; the loop never gets past its first item.  The zero-media
case is unreachable from the modelled callers (they skip empty groups). -/
def create_carousel_ad (tid : TaskId) (mediaCount : Nat) (sched : Sched)
    (st : OrchSt) : Except PyErr Unit × OrchSt :=
  match checkpoint tid sched st with
  | (Except.error e, st1) => (Except.error e, st1)
  | (Except.ok _, st1) =>
    match mediaCount with
    | 0 => (Except.ok (), st1)
    | _ + 1 =>
      match checkpoint tid sched st1 with
      | (Except.error _, st2) => (Except.ok (), st2)
      | (Except.ok _, st2) =>
        match emit_error tid ("Error creating carousel ad for task " ++ tid ++
            ": TypeError: coroutine object is not subscriptable") st2 with
        | (Except.ok _, st3) => (Except.ok (), st3)
        | (Except.error e, st3) => (Except.error e, st3)

/-- Collection loop of process_video_files (app.py lines 1197-1208): per
completed future, check_cancellation outside the try (a raise propagates);
then future.result() inside the try — a TaskCanceledException is caught and
would return from the function, any other exception goes to
handle_video_processing_error, which emits a raw error event — and in every
one of these cases the finally block calls update_progress, whose NameError
replaces the pending return or swallowed exception (Python finally
semantics), so with at least one future the loop always terminates
exceptionally. -/
def collect_videos (tid : TaskId) (futures : List (Except PyErr Unit))
    (sched : Sched) (st : OrchSt) : Except PyErr Unit × OrchSt :=
  match futures with
  | [] => (Except.ok (), st)
  | f :: rest =>
    match checkpoint tid sched st with
    | (Except.error e, st1) => (Except.error e, st1)
    | (Except.ok _, st1) =>
      let st2 :=
        match f with
        | Except.ok _ => st1
        | Except.error (PyErr.taskCanceled _) => st1
        | Except.error e =>
          { st1 with events := st1.events ++ [Ev.errorRaw tid (pyStr e)] }
      match update_progress sched st2 with
      | (Except.error e2, st3) => (Except.error e2, st3)
      | (Except.ok _, st3) =>
        match f with
        | Except.error (PyErr.taskCanceled _) => (Except.ok (), st3)
        | _ => collect_videos tid rest sched st3

/-- Model of process_video_files (app.py lines 1186-1211): in the
Single-image-or-video format the group's units are submitted to the pool
and the futures collected; in the Carousel format create_carousel_ad runs
directly; any other format does nothing.  (The total_videos argument of the
source flows only into the unreachable emission of update_progress.) -/
def process_video_files (tid : TaskId) (fmt : AdFormat) (g : GroupEnv)
    (sched : Sched) (st : OrchSt) : Except PyErr Unit × OrchSt :=
  match fmt with
  | AdFormat.singleImageOrVideo =>
    let w := run_workers tid g.units sched st
    collect_videos tid w.1 sched w.2
  | AdFormat.carousel => create_carousel_ad tid g.units.length sched st
  | AdFormat.otherFormat => (Except.ok (), st)

/-- The groups of one folder of the video path, in order
(process_folder_with_subfolders_video, lines 1157-1170, maps a folder to
one group per nonempty subfolder; process_folder_video, lines 1173-1183, to
a single group): each nonempty group gets a create_ad_set call and, when
that succeeds, a process_video_files call; empty groups and groups whose
ad-set creation failed are skipped. -/
def process_groups_video (tid : TaskId) (fmt : AdFormat) (groups : List GroupEnv)
    (sched : Sched) (st : OrchSt) : Except PyErr Unit × OrchSt :=
  match groups with
  | [] => (Except.ok (), st)
  | g :: rest =>
    if g.units.isEmpty then process_groups_video tid fmt rest sched st
    else
      match create_ad_set tid g.remote sched st with
      | (Except.error e, st1) => (Except.error e, st1)
      | (Except.ok false, st1) => process_groups_video tid fmt rest sched st1
      | (Except.ok true, st1) =>
        match process_video_files tid fmt g sched st1 with
        | (Except.error e, st2) => (Except.error e, st2)
        | (Except.ok _, st2) => process_groups_video tid fmt rest sched st2

/-- The folder loop of process_videos (lines 1134-1141): per folder a
cancellation checkpoint, then the folder's groups. -/
def process_folders_video (tid : TaskId) (fmt : AdFormat)
    (folders : List (List GroupEnv)) (sched : Sched) (st : OrchSt) :
    Except PyErr Unit × OrchSt :=
  match folders with
  | [] => (Except.ok (), st)
  | f :: rest =>
    match checkpoint tid sched st with
    | (Except.error e, st1) => (Except.error e, st1)
    | (Except.ok _, st1) =>
      match process_groups_video tid fmt f sched st1 with
      | (Except.error e, st2) => (Except.error e, st2)
      | (Except.ok _, st2) => process_folders_video tid fmt rest sched st2

/-- The total unit count computed by handle_create_campaign before
dispatch (lines 1118-1123): the number of media files over all folders. -/
def totalUnitsOf (folders : List (List GroupEnv)) : Nat :=
  (folders.map (fun f => (f.map (fun g => g.units.length)).sum)).sum

/-- The try-body of process_videos (app.py lines 1126-1145): the initial 0%
progress event, one time.time() sample into the local last_update_time that
update_progress cannot see, the folder loop, and on normal completion the
100% progress event followed by the task_complete event. -/
def process_videos_body (tid : TaskId) (fmt : AdFormat)
    (folders : List (List GroupEnv)) (sched : Sched) (st : OrchSt) :
    Except PyErr Unit × OrchSt :=
  let total := totalUnitsOf folders
  let st0 := emit_progress tid 0 total 0 st
  let st1 := (timeNow sched st0).2
  match process_folders_video tid fmt folders sched st1 with
  | (Except.error e, st2) => (Except.error e, st2)
  | (Except.ok _, st2) =>
    (Except.ok (), emit_task_complete tid (emit_progress tid 100 total total st2))

/-- Model of process_videos (app.py lines 1125-1152): the try-body, with a
TaskCanceledException swallowed (only logged), any other exception routed to
handle_processing_error_video (lines 1231-1237, a raw error event), and the
finally block running cleanup_task. -/
def process_videos (tid : TaskId) (fmt : AdFormat)
    (folders : List (List GroupEnv)) (sched : Sched) (st : OrchSt) : OrchSt :=
  let r := process_videos_body tid fmt folders sched st
  let st' :=
    match r.1 with
    | Except.ok _ => r.2
    | Except.error (PyErr.taskCanceled _) => r.2
    | Except.error e => { r.2 with events := r.2.events ++ [Ev.errorRaw tid (pyStr e)] }
  { st' with regs := cleanup_task tid st'.regs }

/-- Collection loop of process_media_files (app.py lines 1433-1445): like
the video one, but the finally block increments the local processed_files
copy and calls update_progress_media, which works (its timestamp comes in
as a parameter), so a caught TaskCanceledException really does return after
the finally block runs. -/
def collect_media (tid : TaskId) (futures : List (Except PyErr Unit)) (total : Nat)
    (processedFiles : Nat) (lastUpdateTime : ℚ) (sched : Sched) (st : OrchSt) :
    Except PyErr Unit × OrchSt :=
  match futures with
  | [] => (Except.ok (), st)
  | f :: rest =>
    match checkpoint tid sched st with
    | (Except.error e, st1) => (Except.error e, st1)
    | (Except.ok _, st1) =>
      let st2 :=
        match f with
        | Except.ok _ => st1
        | Except.error (PyErr.taskCanceled _) => st1
        | Except.error e =>
          { st1 with events := st1.events ++ [Ev.errorRaw tid (pyStr e)] }
      let processed1 := processedFiles + 1
      let st3 := update_progress_media tid total processed1 lastUpdateTime sched st2
      match f with
      | Except.error (PyErr.taskCanceled _) => (Except.ok (), st3)
      | _ => collect_media tid rest total processed1 lastUpdateTime sched st3

/-- Model of process_media_files (app.py lines 1422-1448).  processedFiles
is the caller's processed_files value, passed by value (a Python int): the
increments inside this call mutate only the local copy, so the caller's
count never advances. -/
def process_media_files (tid : TaskId) (fmt : AdFormat) (g : GroupEnv)
    (total processedFiles : Nat) (lastUpdateTime : ℚ) (sched : Sched)
    (st : OrchSt) : Except PyErr Unit × OrchSt :=
  match fmt with
  | AdFormat.singleImageOrVideo =>
    let w := run_workers tid g.units sched st
    collect_media tid w.1 total processedFiles lastUpdateTime sched w.2
  | AdFormat.carousel => create_carousel_ad tid g.units.length sched st
  | AdFormat.otherFormat => (Except.ok (), st)

/-- The groups of one folder of the mixed-media path
(process_subfolders_media, lines 1391-1405, and process_folder_media, lines
1408-1419): each group with media gets a create_ad_set call and, when that
succeeds, a process_media_files call carrying the caller's unchanged
processed_files and last_update_time values. -/
def process_groups_media (tid : TaskId) (fmt : AdFormat) (groups : List GroupEnv)
    (total processedFiles : Nat) (lastUpdateTime : ℚ) (sched : Sched)
    (st : OrchSt) : Except PyErr Unit × OrchSt :=
  match groups with
  | [] => (Except.ok (), st)
  | g :: rest =>
    if g.units.isEmpty then
      process_groups_media tid fmt rest total processedFiles lastUpdateTime sched st
    else
      match create_ad_set tid g.remote sched st with
      | (Except.error e, st1) => (Except.error e, st1)
      | (Except.ok false, st1) =>
        process_groups_media tid fmt rest total processedFiles lastUpdateTime sched st1
      | (Except.ok true, st1) =>
        match process_media_files tid fmt g total processedFiles lastUpdateTime sched st1 with
        | (Except.error e, st2) => (Except.error e, st2)
        | (Except.ok _, st2) =>
          process_groups_media tid fmt rest total processedFiles lastUpdateTime sched st2

/-- The folder loop of process_mixed_media (lines 1355-1362): per folder a
cancellation checkpoint, then the folder's groups; processed_files (still
zero in this scope, nothing here increments it) and last_update_time are
passed down by value each iteration. -/
def process_folders_media (tid : TaskId) (fmt : AdFormat)
    (folders : List (List GroupEnv)) (total processedFiles : Nat)
    (lastUpdateTime : ℚ) (sched : Sched) (st : OrchSt) :
    Except PyErr Unit × OrchSt :=
  match folders with
  | [] => (Except.ok (), st)
  | f :: rest =>
    match checkpoint tid sched st with
    | (Except.error e, st1) => (Except.error e, st1)
    | (Except.ok _, st1) =>
      match process_groups_media tid fmt f total processedFiles lastUpdateTime sched st1 with
      | (Except.error e, st2) => (Except.error e, st2)
      | (Except.ok _, st2) =>
        process_folders_media tid fmt rest total processedFiles lastUpdateTime sched st2

/-- The try-body of process_mixed_media (app.py lines 1347-1365): the 0%
progress event, processed_files = 0, one time.time() sample into
last_update_time, the folder loop, and on normal completion the 100%
progress event and the task_complete event. -/
def process_mixed_media_body (tid : TaskId) (fmt : AdFormat)
    (folders : List (List GroupEnv)) (sched : Sched) (st : OrchSt) :
    Except PyErr Unit × OrchSt :=
  let total := totalUnitsOf folders
  let st0 := emit_progress tid 0 total 0 st
  let tm := timeNow sched st0
  match process_folders_media tid fmt folders total 0 tm.1 sched tm.2 with
  | (Except.error e, st2) => (Except.error e, st2)
  | (Except.ok _, st2) =>
    (Except.ok (), emit_task_complete tid (emit_progress tid 100 total total st2))

/-- Model of process_mixed_media (app.py lines 1346-1372): the try-body,
with a TaskCanceledException swallowed, any other exception routed to
handle_processing_error (a raw error event) and the finally block running
cleanup_task. -/
def process_mixed_media (tid : TaskId) (fmt : AdFormat)
    (folders : List (List GroupEnv)) (sched : Sched) (st : OrchSt) : OrchSt :=
  let r := process_mixed_media_body tid fmt folders sched st
  let st' :=
    match r.1 with
    | Except.ok _ => r.2
    | Except.error (PyErr.taskCanceled _) => r.2
    | Except.error e => { r.2 with events := r.2.events ++ [Ev.errorRaw tid (pyStr e)] }
  { st' with regs := cleanup_task tid st'.regs }

/-- Initial run-time state over given registries: no events, no kills, all
counters zero. -/
def initSt (regs : Registries) : OrchSt :=
  ⟨regs, [], [], 0, 0, 0, 0, 0, []⟩

/-- The step values carried by the progress events of an event list, in
emission order. -/
def progressSteps (evs : List Ev) : List Nat :=
  evs.filterMap (fun e =>
    match e with
    | Ev.progress _ _ s _ => some s
    | _ => none)

def isTaskComplete (tid : TaskId) : Ev → Bool
  | Ev.taskComplete t => t = tid
  | _ => false

/-- How many task_complete events for the task an event list holds. -/
def countTaskComplete (tid : TaskId) (evs : List Ev) : Nat :=
  (evs.filter (isTaskComplete tid)).length

/-- Whether an event is an error event for the task (either an emit_error
event or a raw socketio error emission). -/
def isErrorEvent (tid : TaskId) : Ev → Bool
  | Ev.errorEv t _ _ => t = tid
  | Ev.errorRaw t _ => t = tid
  | _ => false

/-- How many error events for the task an event list holds. -/
def countErrorEvents (tid : TaskId) (evs : List Ev) : Nat :=
  (evs.filter (isErrorEvent tid)).length

/-- A concrete kill oracle for witnesses: pid 5 has already exited (its
SIGTERM attempt raises ProcessLookupError), every other pid is alive. -/
def kill1 : Pid → Except Unit Unit :=
  fun p => if p = 5 then Except.error () else Except.ok ()

/-- A concrete started-task state for witnesses: task t1 started, two
registered pids. -/
def st1 : Registries := ⟨[], [("t1", true)], [("t1", [5, 6])]⟩

/-- Registry state of a freshly started task t1 (handle_create_campaign
lines 1036-1038): in upload_tasks, an empty pid list, not canceled. -/
def startedRegs : Registries := ⟨[], [("t1", true)], [("t1", [])]⟩

/-- A schedule whose CancelBatch request fires just before scheduler step 3
(the per-card checkpoint inside create_carousel_ad); the clock is constant. -/
def schedCancelAt3 : Sched := ⟨fun _ => 1, some 3, fun _ => Except.ok ()⟩

/-- A schedule with no cancellation whose clock returns the start instant 0
once and then 1 (so every throttled emission is past the 0.5s window). -/
def schedNoCancel : Sched := ⟨fun i => if i = 0 then 0 else 1, none, fun _ => Except.ok ()⟩

/-- A schedule with no cancellation and a constant clock. -/
def schedPlain : Sched := ⟨fun _ => 1, none, fun _ => Except.ok ()⟩

/-- A schedule with no cancellation whose clock reads 0.6 and then 0.7:
two consecutive throttle checks still measured against the same task start
time 0, 0.1 seconds apart. -/
def schedClose : Sched :=
  ⟨fun i => if i = 0 then (3 : ℚ)/5 else (7 : ℚ)/10, none, fun _ => Except.ok ()⟩

/-- The C1 counterexample run: one folder, one single-video group, Carousel
format, cancel request firing between the two checkpoints of
create_carousel_ad. -/
def c1run : OrchSt :=
  process_videos "t1" AdFormat.carousel
    [[⟨[UnitBody.mediaFile], GroupRemote.adSetCreated⟩]] schedCancelAt3 (initSt startedRegs)

/-- The C2 counterexample run: mixed-media path, two folders whose groups
hold two and one unit, no cancellation; every unit's future completes
normally (each body's TypeError is caught inside the worker). -/
def c2run : OrchSt :=
  process_mixed_media "t1" AdFormat.singleImageOrVideo
    [[⟨[UnitBody.mediaFile, UnitBody.mediaFile], GroupRemote.adSetCreated⟩],
      [⟨[UnitBody.mediaFile], GroupRemote.adSetCreated⟩]] schedNoCancel (initSt startedRegs)

/-- The C8 counterexample run: one video-path group of two units, no
cancellation; both bodies raise the generate_link_with_utm TypeError, as
every create_ad body does. -/
def c8run : Except PyErr Unit × OrchSt :=
  process_video_files "t1" AdFormat.singleImageOrVideo
    ⟨[UnitBody.mediaFile, UnitBody.mediaFile], GroupRemote.adSetCreated⟩
    schedPlain (initSt startedRegs)

/-- One when a computation finished without an exception, zero otherwise
(used to state that an event is emitted exactly on normal completion). -/
def isOkFlag : Except PyErr Unit → Nat
  | Except.ok _ => 1
  | Except.error _ => 0

/-! ### Helper lemmas on the dict and set models -/

theorem mem_setAdd_self (s : List TaskId) (t : TaskId) : t ∈ setAdd s t := by
  unfold setAdd
  split
  · assumption
  · simp

theorem mem_setAdd_iff_of_ne (s : List TaskId) (t t' : TaskId) (h : t' ≠ t) :
    (t' ∈ setAdd s t ↔ t' ∈ s) := by
  unfold setAdd
  split
  · exact Iff.rfl
  · simp [h]

theorem setAdd_eq_of_mem (s : List TaskId) (t : TaskId) (h : t ∈ s) :
    setAdd s t = s := by
  simp [setAdd, h]

theorem dictGet_eq_none_of_not_key {κ α : Type} [DecidableEq κ] (d : List (κ × α))
    (k : κ) (h : k ∉ d.map Prod.fst) : dictGet d k = none := by
  induction d with
  | nil => rfl
  | cons hd tl ih =>
    simp only [List.map_cons, List.mem_cons] at h
    push_neg at h
    have hne : ¬hd.1 = k := fun hc => h.1 hc.symm
    simp [dictGet, hne, ih h.2]

theorem dictGet_dictPop_ne {κ α : Type} [DecidableEq κ] (d : List (κ × α)) (k k' : κ)
    (h : k' ≠ k) : dictGet (dictPop d k) k' = dictGet d k' := by
  induction d with
  | nil => rfl
  | cons hd tl ih =>
    by_cases hk : hd.1 = k
    · have hne : ¬hd.1 = k' := fun hc => h (hc.symm.trans hk)
      have hne2 : ¬k = k' := fun hc => h hc.symm
      simp [dictPop, hk, dictGet, hne, hne2]
    · by_cases hk' : hd.1 = k'
      · simp [dictPop, hk, dictGet, hk', h]
      · simp [dictPop, hk, dictGet, hk', ih, h]

theorem dictGet_dictPop_self {κ α : Type} [DecidableEq κ] (d : List (κ × α)) (k : κ)
    (h : (d.map Prod.fst).Nodup) : dictGet (dictPop d k) k = none := by
  induction d with
  | nil => rfl
  | cons hd tl ih =>
    simp only [List.map_cons, List.nodup_cons] at h
    by_cases hk : hd.1 = k
    · simp only [dictPop, if_pos hk]
      exact dictGet_eq_none_of_not_key tl k (fun hc => h.1 (by rw [hk]; exact hc))
    · simp [dictPop, hk, dictGet, ih h.2]

theorem dictPop_eq_of_not_key {κ α : Type} [DecidableEq κ] (d : List (κ × α)) (k : κ)
    (h : dictGet d k = none) : dictPop d k = d := by
  induction d with
  | nil => rfl
  | cons hd tl ih =>
    by_cases hk : hd.1 = k
    · simp [dictGet, hk] at h
    · simp only [dictGet, if_neg hk] at h
      simp [dictPop, hk, ih h]

theorem dictGet_dictSet_self {κ α : Type} [DecidableEq κ] (d : List (κ × α)) (k : κ)
    (v : α) : dictGet (dictSet d k v) k = some v := by
  induction d with
  | nil => simp [dictSet, dictGet]
  | cons hd tl ih =>
    by_cases hk : hd.1 = k
    · simp [dictSet, hk, dictGet]
    · simp [dictSet, hk, dictGet, ih]

theorem dictGet_dictSet_ne {κ α : Type} [DecidableEq κ] (d : List (κ × α)) (k k' : κ)
    (v : α) (h : k' ≠ k) : dictGet (dictSet d k v) k' = dictGet d k' := by
  induction d with
  | nil =>
    have hne : ¬k = k' := fun hc => h hc.symm
    simp [dictSet, dictGet, hne]
  | cons hd tl ih =>
    by_cases hk : hd.1 = k
    · have hne : ¬k = k' := fun hc => h hc.symm
      have hne2 : ¬hd.1 = k' := fun hc => h (hc.symm.trans hk)
      simp [dictSet, hk, dictGet, hne, hne2]
    · by_cases hk' : hd.1 = k'
      · simp [dictSet, hk, dictGet, hk', h]
      · simp [dictSet, hk, dictGet, hk', ih, h]

theorem dictSet_dictSet_self {κ α : Type} [DecidableEq κ] (d : List (κ × α)) (k : κ)
    (v : α) : dictSet (dictSet d k v) k v = dictSet d k v := by
  induction d with
  | nil => simp [dictSet]
  | cons hd tl ih =>
    by_cases hk : hd.1 = k
    · simp [dictSet, hk]
    · simp [dictSet, hk, ih]

theorem registries_ext (a b : Registries)
    (h1 : a.canceledTasks = b.canceledTasks) (h2 : a.uploadTasks = b.uploadTasks)
    (h3 : a.processPids = b.processPids) : a = b := by
  cases a
  cases b
  simp_all

theorem cancel_task_eq_pos (kill : Pid → Except Unit Unit) (tid : TaskId)
    (st : Registries) (h : dictHasKey st.uploadTasks tid = true) :
    cancel_task kill tid st =
      (⟨setAdd st.canceledTasks tid, dictSet st.uploadTasks tid false,
        dictPop st.processPids tid⟩, dictGetD st.processPids tid []) := by
  simp only [cancel_task]
  split
  · rfl
  · simp_all

theorem cancel_task_eq_neg (kill : Pid → Except Unit Unit) (tid : TaskId)
    (st : Registries) (h : dictHasKey st.uploadTasks tid = false) :
    cancel_task kill tid st =
      ({ st with canceledTasks := setAdd st.canceledTasks tid }, []) := by
  simp only [cancel_task]
  split
  · simp_all
  · rfl

/-! ### Claims about the cancellation and process registries -/

/-- C4: check_cancellation is destructive-once.  If the id is in the
canceled set the check removes it and fails with TaskCanceledException; if
it is not, the check returns normally and leaves all state unchanged; and
after a single marking the first check observes the cancellation while a
second check performed immediately after returns normally. -/
theorem check_cancellation_destructive_once (tid : TaskId) (st : Registries)
    (hnd : st.canceledTasks.Nodup) :
    (tid ∈ st.canceledTasks →
      check_cancellation tid st =
        (Except.error (PyErr.taskCanceled tid),
          { st with canceledTasks := st.canceledTasks.erase tid }) ∧
      check_cancellation tid { st with canceledTasks := st.canceledTasks.erase tid } =
        (Except.ok (), { st with canceledTasks := st.canceledTasks.erase tid })) ∧
    (tid ∉ st.canceledTasks → check_cancellation tid st = (Except.ok (), st)) := by
  constructor
  · intro hmem
    constructor
    · simp [check_cancellation, hmem]
    · have hout : tid ∉ st.canceledTasks.erase tid := by
        intro hc
        exact ((List.Nodup.mem_erase_iff hnd).mp hc).1 rfl
      simp [check_cancellation, hout]
  · intro hmem
    simp [check_cancellation, hmem]

/-- Witness for C4 at a concrete marked task. -/
theorem check_cancellation_destructive_once_witness :
    check_cancellation "t1" ⟨["t1"], [], []⟩ =
      (Except.error (PyErr.taskCanceled "t1"), ⟨[], [], []⟩) ∧
    check_cancellation "t1" ⟨[], [], []⟩ = (Except.ok (), ⟨[], [], []⟩) := by
  have h := (check_cancellation_destructive_once "t1" ⟨["t1"], [], []⟩
    (by decide)).1 (by decide)
  exact ⟨h.1, h.2⟩

/-- C5: marking a task canceled adds its id to the canceled set and signals
SIGTERM to every process currently registered for that task, then clears
that task's process list; a termination failure of an individual process is
swallowed (the outcome never depends on the kill results and no exception
escapes); processes registered under other task ids are untouched.  The
hypotheses record that the task was started (handle_create_campaign line
1037 puts every started task into upload_tasks) and that the process dict
has unique keys, as every Python dict does. -/
theorem cancel_task_terminates_registered (kill : Pid → Except Unit Unit)
    (tid : TaskId) (st : Registries)
    (hstarted : dictHasKey st.uploadTasks tid = true)
    (hkeys : (st.processPids.map Prod.fst).Nodup) :
    tid ∈ (cancel_task kill tid st).1.canceledTasks ∧
    (cancel_task kill tid st).2 = dictGetD st.processPids tid [] ∧
    dictGet (cancel_task kill tid st).1.processPids tid = none ∧
    (∀ t', t' ≠ tid →
      dictGet (cancel_task kill tid st).1.processPids t' = dictGet st.processPids t') ∧
    (∀ kill', cancel_task kill' tid st = cancel_task kill tid st) := by
  rw [cancel_task_eq_pos kill tid st hstarted]
  refine ⟨mem_setAdd_self _ _, rfl, ?_, ?_, ?_⟩
  · exact dictGet_dictPop_self st.processPids tid hkeys
  · intro t' hne
    exact dictGet_dictPop_ne st.processPids tid t' hne
  · intro kill'
    rw [cancel_task_eq_pos kill' tid st hstarted]

/-- Witness for C5 at a concrete started task holding two pids, one of them
already exited. -/
theorem cancel_task_terminates_registered_witness :
    "t1" ∈ (cancel_task kill1 "t1" st1).1.canceledTasks ∧
    (cancel_task kill1 "t1" st1).2 = [5, 6] ∧
    dictGet (cancel_task kill1 "t1" st1).1.processPids "t1" = none := by
  have h := cancel_task_terminates_registered kill1 "t1" st1 (by decide) (by decide)
  exact ⟨h.1, h.2.1.trans (by decide), h.2.2.1⟩

/-- C6 counterexample: cancelling a task after it has already finished is
not a no-op.  After the run of task "t1" was finalized (cleanup_task popped
its process entry; nothing removes it from upload_tasks or touches the
canceled set), a check for "t1" succeeds — but after one further
CancelBatch call the id sits in the canceled set, where nothing ever clears
it, and the next check for a task reusing the id "t1" fails with
TaskCanceledException. -/
theorem cancel_after_finish_not_noop :
    (check_cancellation "t1"
        (cleanup_task "t1" ⟨[], [("t1", true)], [("t1", [])]⟩)).1 = Except.ok () ∧
    (cancel_task (fun _ => Except.ok ()) "t1"
        (cleanup_task "t1" ⟨[], [("t1", true)], [("t1", [])]⟩)).1.canceledTasks = ["t1"] ∧
    (check_cancellation "t1"
        (cancel_task (fun _ => Except.ok ()) "t1"
          (cleanup_task "t1" ⟨[], [("t1", true)], [("t1", [])]⟩)).1).1 =
      Except.error (PyErr.taskCanceled "t1") := by
  exact ⟨rfl, rfl, rfl⟩

/-- C6 amended: CancelBatch is idempotent — a second call leaves the
registries exactly as the first left them and signals no further process —
and it never touches the entries of other task ids; calling it after the
task has finished still succeeds, but it is not a no-op: it adds the id to
the canceled set (where finalization never clears it), so the next
cancellation check for a task reusing that id fails.  The Nodup hypothesis
is the Python-dict unique-keys invariant. -/
theorem cancel_task_idempotent_but_marks_after_finish
    (kill : Pid → Except Unit Unit) (tid : TaskId) (st : Registries)
    (hkeys : (st.processPids.map Prod.fst).Nodup) :
    (cancel_task kill tid (cancel_task kill tid st).1).1 = (cancel_task kill tid st).1 ∧
    (cancel_task kill tid (cancel_task kill tid st).1).2 = [] ∧
    (∀ t', t' ≠ tid →
      dictGet (cancel_task kill tid st).1.processPids t' = dictGet st.processPids t' ∧
      dictGet (cancel_task kill tid st).1.uploadTasks t' = dictGet st.uploadTasks t' ∧
      (t' ∈ (cancel_task kill tid st).1.canceledTasks ↔ t' ∈ st.canceledTasks)) ∧
    (check_cancellation tid (cancel_task kill tid st).1).1 =
      Except.error (PyErr.taskCanceled tid) := by
  by_cases hk : dictHasKey st.uploadTasks tid = true
  · have hnone : dictGet (dictPop st.processPids tid) tid = none :=
      dictGet_dictPop_self st.processPids tid hkeys
    have hk2 : dictHasKey (dictSet st.uploadTasks tid false) tid = true := by
      simp [dictHasKey, dictGet_dictSet_self]
    have h1 := cancel_task_eq_pos kill tid st hk
    have h2 := cancel_task_eq_pos kill tid
      (⟨setAdd st.canceledTasks tid, dictSet st.uploadTasks tid false,
        dictPop st.processPids tid⟩ : Registries) hk2
    rw [h1]
    refine ⟨?_, ?_, ?_, ?_⟩
    · rw [h2]
      exact registries_ext _ _ (setAdd_eq_of_mem _ _ (mem_setAdd_self _ _))
        (dictSet_dictSet_self _ _ _) (dictPop_eq_of_not_key _ _ hnone)
    · rw [h2]
      simp [dictGetD, hnone]
    · intro t' hne
      exact ⟨dictGet_dictPop_ne _ _ _ hne, dictGet_dictSet_ne _ _ _ _ hne,
        mem_setAdd_iff_of_ne _ _ _ hne⟩
    · simp [check_cancellation, mem_setAdd_self]
  · have hkf : dictHasKey st.uploadTasks tid = false := by
      simpa using hk
    have h1 := cancel_task_eq_neg kill tid st hkf
    have h2 := cancel_task_eq_neg kill tid
      ({ st with canceledTasks := setAdd st.canceledTasks tid } : Registries) hkf
    rw [h1]
    refine ⟨?_, ?_, ?_, ?_⟩
    · rw [h2]
      exact registries_ext _ _ (setAdd_eq_of_mem _ _ (mem_setAdd_self _ _)) rfl rfl
    · rw [h2]
    · intro t' hne
      exact ⟨rfl, rfl, mem_setAdd_iff_of_ne _ _ _ hne⟩
    · simp [check_cancellation, mem_setAdd_self]

/-- Witness for C6 amended at a concrete state. -/
theorem cancel_task_idempotent_witness :
    (cancel_task kill1 "t2"
        (cancel_task kill1 "t2" ⟨[], [("t2", true)], [("t2", [9])]⟩).1).1 =
      (cancel_task kill1 "t2" ⟨[], [("t2", true)], [("t2", [9])]⟩).1 ∧
    (cancel_task kill1 "t2"
        (cancel_task kill1 "t2" ⟨[], [("t2", true)], [("t2", [9])]⟩).1).2 = [] := by
  have h := cancel_task_idempotent_but_marks_after_finish kill1 "t2"
    ⟨[], [("t2", true)], [("t2", [9])]⟩ (by decide)
  exact ⟨h.1, h.2.1⟩

/-! ### The retry poller -/

theorem is_video_ready_loop_checks_le (check : Nat → PollOutcome)
    (attempt remaining delay : Nat) :
    (is_video_ready_loop check attempt remaining delay).checksMade ≤ remaining := by
  induction remaining generalizing attempt delay with
  | zero => simp [is_video_ready_loop]
  | succ r ih =>
    simp only [is_video_ready_loop]
    cases hc : check attempt with
    | ready => simp
    | notReady => exact Nat.succ_le_succ (ih _ _)
    | transientErr d => exact Nat.succ_le_succ (ih _ _)

theorem is_video_ready_loop_result_iff (check : Nat → PollOutcome)
    (attempt remaining delay : Nat) :
    ((is_video_ready_loop check attempt remaining delay).result = true ↔
      ∃ i, attempt ≤ i ∧ i < attempt + remaining ∧ check i = PollOutcome.ready) := by
  induction remaining generalizing attempt delay with
  | zero =>
    constructor
    · intro h
      simp [is_video_ready_loop] at h
    · rintro ⟨i, h1, h2, _⟩
      omega
  | succ r ih =>
    simp only [is_video_ready_loop]
    cases hc : check attempt with
    | ready =>
      constructor
      · intro _
        exact ⟨attempt, le_refl _, by omega, hc⟩
      · intro _
        rfl
    | notReady =>
      rw [show (⟨(is_video_ready_loop check (attempt + 1) r (delay * 2)).result,
          delay :: (is_video_ready_loop check (attempt + 1) r (delay * 2)).sleeps,
          (is_video_ready_loop check (attempt + 1) r (delay * 2)).checksMade + 1⟩ :
            PollTrace).result =
          (is_video_ready_loop check (attempt + 1) r (delay * 2)).result from rfl]
      rw [ih (attempt + 1) (delay * 2)]
      constructor
      · rintro ⟨i, h1, h2, h3⟩
        exact ⟨i, by omega, by omega, h3⟩
      · rintro ⟨i, h1, h2, h3⟩
        refine ⟨i, ?_, by omega, h3⟩
        rcases Nat.eq_or_lt_of_le h1 with he | hl
        · rw [← he] at h3
          rw [h3] at hc
          cases hc
        · omega
    | transientErr d =>
      rw [show (⟨(is_video_ready_loop check (attempt + 1) r (delay * 2)).result,
          delay :: (is_video_ready_loop check (attempt + 1) r (delay * 2)).sleeps,
          (is_video_ready_loop check (attempt + 1) r (delay * 2)).checksMade + 1⟩ :
            PollTrace).result =
          (is_video_ready_loop check (attempt + 1) r (delay * 2)).result from rfl]
      rw [ih (attempt + 1) (delay * 2)]
      constructor
      · rintro ⟨i, h1, h2, h3⟩
        exact ⟨i, by omega, by omega, h3⟩
      · rintro ⟨i, h1, h2, h3⟩
        refine ⟨i, ?_, by omega, h3⟩
        rcases Nat.eq_or_lt_of_le h1 with he | hl
        · rw [← he] at h3
          rw [h3] at hc
          cases hc
        · omega

theorem is_video_ready_loop_congr (check check' : Nat → PollOutcome)
    (h : ∀ i, check i = PollOutcome.ready ↔ check' i = PollOutcome.ready)
    (attempt remaining delay : Nat) :
    is_video_ready_loop check attempt remaining delay =
      is_video_ready_loop check' attempt remaining delay := by
  induction remaining generalizing attempt delay with
  | zero => rfl
  | succ r ih =>
    simp only [is_video_ready_loop]
    cases hc : check attempt with
    | ready =>
      rw [(h attempt).mp hc]
    | notReady =>
      have hc' : ¬check' attempt = PollOutcome.ready := fun hcc => by
        rw [(h attempt).mpr hcc] at hc
        cases hc
      cases hc2 : check' attempt with
      | ready => exact absurd hc2 hc'
      | notReady => rw [ih]
      | transientErr d2 => rw [ih]
    | transientErr d =>
      have hc' : ¬check' attempt = PollOutcome.ready := fun hcc => by
        rw [(h attempt).mpr hcc] at hc
        cases hc
      cases hc2 : check' attempt with
      | ready => exact absurd hc2 hc'
      | notReady => rw [ih]
      | transientErr d2 => rw [ih]

/-- C7: the readiness poller invokes the check at most maxAttempts times;
it returns true exactly when some attempt within the budget reports ready
(so it stops at the first ready result); a transient error from the check
is treated as a non-ready result and retried, never propagated — the whole
trace depends only on which attempts report ready; with maxAttempts = 3,
initialDelay = 1 and a never-ready check the sleeps are 1s, 2s, 4s and the
result is false; and with maxAttempts = 0 it returns false immediately,
without sleeping and without invoking the check. -/
theorem is_video_ready_retry_poller :
    (∀ check maxRetries initDelay,
      (is_video_ready check maxRetries initDelay).checksMade ≤ maxRetries) ∧
    (∀ check maxRetries initDelay,
      ((is_video_ready check maxRetries initDelay).result = true ↔
        ∃ i, 1 ≤ i ∧ i ≤ maxRetries ∧ check i = PollOutcome.ready)) ∧
    (∀ check check' maxRetries initDelay,
      (∀ i, check i = PollOutcome.ready ↔ check' i = PollOutcome.ready) →
      is_video_ready check maxRetries initDelay =
        is_video_ready check' maxRetries initDelay) ∧
    is_video_ready (fun _ => PollOutcome.notReady) 3 1 =
      ⟨false, [1, 2, 4], 3⟩ ∧
    (∀ check initDelay, is_video_ready check 0 initDelay = ⟨false, [], 0⟩) := by
  refine ⟨?_, ?_, ?_, rfl, ?_⟩
  · intro check maxRetries initDelay
    exact is_video_ready_loop_checks_le check 1 maxRetries initDelay
  · intro check maxRetries initDelay
    rw [is_video_ready, is_video_ready_loop_result_iff]
    constructor
    · rintro ⟨i, h1, h2, h3⟩
      exact ⟨i, h1, by omega, h3⟩
    · rintro ⟨i, h1, h2, h3⟩
      exact ⟨i, h1, by omega, h3⟩
  · intro check check' maxRetries initDelay h
    exact is_video_ready_loop_congr check check' h 1 maxRetries initDelay
  · intro check initDelay
    rfl

/-- Witness for C7: a poller whose check always raises a transient error
behaves exactly like one whose check always reports not-ready. -/
theorem is_video_ready_retry_poller_witness :
    is_video_ready (fun _ => PollOutcome.notReady) 2 5 =
      is_video_ready (fun _ => PollOutcome.transientErr "down") 2 5 :=
  is_video_ready_retry_poller.2.2.1 _ _ 2 5 (fun _ => by simp)

/-! ### Error-payload parsing and age-range parsing -/

/-- C9 counterexample: the emission can fail.  For a raw message whose
Response: JSON body parses to an object whose error field holds a non-dict
value, the .get chain of emit_error (line 73) raises AttributeError, which
is not the caught json.JSONDecodeError and therefore propagates out of
emit_error to its caller. -/
theorem emit_error_payload_can_fail :
    emit_error_payload "Request failed. Response: \x7b\"error\": \"boom\"\x7d" =
      Except.error (PyErr.attributeErr "get") := rfl

/-- C9 amended: when an error is surfaced, the raw message is searched for a
Response: JSON body.  With no body found, or a body that fails to parse,
the event carries the default title and the raw message text.  When the
body parses (necessarily to an object), title and message are extracted
from its error field with defaults for missing fields — provided the error
field is absent or holds an object; if it holds a non-object value, the
emission itself fails with AttributeError (see the counterexample). -/
theorem emit_error_payload_spec :
    (∀ msg, findResponseJsonStr msg = none →
      emit_error_payload msg =
        Except.ok (JVal.jstr default_error_title, JVal.jstr msg)) ∧
    (∀ msg grp, findResponseJsonStr msg = some grp → json_loads grp = none →
      emit_error_payload msg =
        Except.ok (JVal.jstr default_error_title, JVal.jstr msg)) ∧
    (∀ msg grp kvs, findResponseJsonStr msg = some grp →
      json_loads grp = some (JVal.jobj kvs) → dictGet kvs "error" = none →
      emit_error_payload msg =
        Except.ok (JVal.jstr default_error_title, JVal.jstr default_error_message)) ∧
    (∀ msg grp kvs ekvs, findResponseJsonStr msg = some grp →
      json_loads grp = some (JVal.jobj kvs) →
      dictGet kvs "error" = some (JVal.jobj ekvs) →
      emit_error_payload msg =
        Except.ok ((dictGet ekvs "error_user_title").getD (JVal.jstr default_error_title),
          (dictGet ekvs "error_user_msg").getD (JVal.jstr default_error_message))) ∧
    (∀ msg grp kvs v, findResponseJsonStr msg = some grp →
      json_loads grp = some (JVal.jobj kvs) → dictGet kvs "error" = some v →
      (∀ entries, v ≠ JVal.jobj entries) →
      emit_error_payload msg = Except.error (PyErr.attributeErr "get")) := by
  refine ⟨?_, ?_, ?_, ?_, ?_⟩
  · intro msg h
    simp [emit_error_payload, h]
  · intro msg grp h1 h2
    simp [emit_error_payload, h1, h2]
  · intro msg grp kvs h1 h2 h3
    simp [emit_error_payload, h1, h2, pyGetAttrDefault, h3, Bind.bind, Except.bind,
      Functor.map, Except.map, Pure.pure, Except.pure, dictGet]
  · intro msg grp kvs ekvs h1 h2 h3
    simp [emit_error_payload, h1, h2, pyGetAttrDefault, h3, Bind.bind, Except.bind,
      Functor.map, Except.map, Pure.pure, Except.pure]
  · intro msg grp kvs v h1 h2 h3 h4
    have hv : pyGetAttrDefault v "error_user_title" (JVal.jstr default_error_title) =
        Except.error (PyErr.attributeErr "get") := by
      cases v with
      | jobj entries => exact absurd rfl (h4 entries)
      | jnull => rfl
      | jbool b => rfl
      | jnum raw => rfl
      | jstr s2 => rfl
      | jarr elems => rfl
    simp [emit_error_payload, h1, h2, pyGetAttrDefault, h3, hv, Bind.bind, Except.bind,
      Functor.map, Except.map]

/-- Witness for C9 amended: a message holding no JSON body falls back to the
raw text. -/
theorem emit_error_payload_spec_witness :
    emit_error_payload "upload timed out" =
      Except.ok (JVal.jstr default_error_title, JVal.jstr "upload timed out") :=
  emit_error_payload_spec.1 "upload timed out" rfl

/-- C10: parse_age_range does not raise on any input that is not valid JSON
or that parses to a JSON array of fewer than two elements — it returns the
default pair (18, 65) — and on an array of at least two elements it returns
the first two elements as the pair. -/
theorem parse_age_range_spec :
    (∀ s, json_loads s = none → parse_age_range s = Except.ok age_default_pair) ∧
    (∀ s elems, json_loads s = some (JVal.jarr elems) → elems.length < 2 →
      parse_age_range s = Except.ok age_default_pair) ∧
    (∀ s a b rest, json_loads s = some (JVal.jarr (a :: b :: rest)) →
      parse_age_range s = Except.ok (a, b)) := by
  refine ⟨?_, ?_, ?_⟩
  · intro s h
    simp [parse_age_range, h]
  · intro s elems h hlen
    rcases elems with _ | ⟨x, _ | ⟨y, tl⟩⟩
    · simp [parse_age_range, h, pySubscript]
    · simp [parse_age_range, h, pySubscript]
    · exfalso
      simp [List.length] at hlen
      omega
  · intro s a b rest h
    simp [parse_age_range, h, pySubscript]

/-- Witness for C10: a two-element age range is returned as-is, and a
malformed range falls back to the defaults. -/
theorem parse_age_range_spec_witness :
    parse_age_range "[21, 35]" = Except.ok (JVal.jnum "21", JVal.jnum "35") ∧
    parse_age_range "oops" = Except.ok age_default_pair :=
  ⟨parse_age_range_spec.2.2 "[21, 35]" (JVal.jnum "21") (JVal.jnum "35") [] rfl,
    parse_age_range_spec.1 "oops" rfl⟩

/-! ### Event bookkeeping lemmas for the orchestration model -/

theorem countTaskComplete_append (t : TaskId) (a b : List Ev) :
    countTaskComplete t (a ++ b) = countTaskComplete t a + countTaskComplete t b := by
  simp [countTaskComplete, List.filter_append]

theorem events_checkpoint (tid : TaskId) (sched : Sched) (st : OrchSt) :
    (checkpoint tid sched st).2.events = st.events := by
  simp only [checkpoint, schedTick]
  split
  · split
    · rfl
    · rfl
  · split
    · rfl
    · rfl

theorem events_update_progress (sched : Sched) (st : OrchSt) :
    (update_progress sched st).2.events = st.events := rfl

theorem ctc_emit_error (t tid : TaskId) (message : String) (st : OrchSt) :
    countTaskComplete t (emit_error tid message st).2.events =
      countTaskComplete t st.events := by
  simp only [emit_error]
  cases emit_error_payload message with
  | ok p => simp [countTaskComplete_append, countTaskComplete, isTaskComplete]
  | error e => rfl

theorem ctc_create_ad (t tid : TaskId) (body : UnitBody) (sched : Sched) (st : OrchSt) :
    countTaskComplete t (create_ad tid body sched st).2.events =
      countTaskComplete t st.events := by
  simp only [create_ad]
  split
  · next e st1 heq =>
    have h1 : st1.events = st.events := by
      have h0 := events_checkpoint tid sched st
      rw [heq] at h0
      exact h0
    simp [h1]
  · next u st1 heq =>
    have h1 : st1.events = st.events := by
      have h0 := events_checkpoint tid sched st
      rw [heq] at h0
      exact h0
    split
    · next u2 st2 heq2 =>
      have h2 : countTaskComplete t st2.events = countTaskComplete t st1.events := by
        have h0 := ctc_emit_error t tid
          ("Error creating ad for task " ++ tid ++ ": " ++ utmTypeErrText) st1
        rw [heq2] at h0
        exact h0
      simp [h2, h1]
    · next e2 st2 heq2 =>
      have h2 : countTaskComplete t st2.events = countTaskComplete t st1.events := by
        have h0 := ctc_emit_error t tid
          ("Error creating ad for task " ++ tid ++ ": " ++ utmTypeErrText) st1
        rw [heq2] at h0
        exact h0
      simp [h2, h1]

theorem ctc_run_workers (t tid : TaskId) (units : List UnitBody) (sched : Sched)
    (st : OrchSt) :
    countTaskComplete t (run_workers tid units sched st).2.events =
      countTaskComplete t st.events := by
  induction units generalizing st with
  | nil => rfl
  | cons u rest ih =>
    simp only [run_workers]
    rw [ih]
    exact ctc_create_ad t tid u sched st

theorem ctc_append_errorRaw (t tid : TaskId) (msg : String) (evs : List Ev) :
    countTaskComplete t (evs ++ [Ev.errorRaw tid msg]) = countTaskComplete t evs := by
  simp [countTaskComplete_append, countTaskComplete, isTaskComplete]

theorem ctc_create_ad_set (t tid : TaskId) (outcome : GroupRemote) (sched : Sched)
    (st : OrchSt) :
    countTaskComplete t (create_ad_set tid outcome sched st).2.events =
      countTaskComplete t st.events := by
  cases outcome with
  | adSetCreated =>
    simp only [create_ad_set]
    split
    · next e st1 heq =>
      have h1 : st1.events = st.events := by
        have h0 := events_checkpoint tid sched st
        rw [heq] at h0
        exact h0
      simp [h1]
    · next u st1 heq =>
      have h1 : st1.events = st.events := by
        have h0 := events_checkpoint tid sched st
        rw [heq] at h0
        exact h0
      simp [h1]
  | adSetFails excText =>
    simp only [create_ad_set]
    split
    · next e st1 heq =>
      have h1 : st1.events = st.events := by
        have h0 := events_checkpoint tid sched st
        rw [heq] at h0
        exact h0
      simp [h1]
    · next u st1 heq =>
      have h1 : st1.events = st.events := by
        have h0 := events_checkpoint tid sched st
        rw [heq] at h0
        exact h0
      split
      · next u2 st2 heq2 =>
        have h2 : countTaskComplete t st2.events = countTaskComplete t st1.events := by
          have h0 := ctc_emit_error t tid ("Error creating ad set: " ++ excText) st1
          rw [heq2] at h0
          exact h0
        simp [h2, h1]
      · next e2 st2 heq2 =>
        have h2 : countTaskComplete t st2.events = countTaskComplete t st1.events := by
          have h0 := ctc_emit_error t tid ("Error creating ad set: " ++ excText) st1
          rw [heq2] at h0
          exact h0
        simp [h2, h1]

theorem ctc_create_carousel_ad (t tid : TaskId) (mediaCount : Nat) (sched : Sched)
    (st : OrchSt) :
    countTaskComplete t (create_carousel_ad tid mediaCount sched st).2.events =
      countTaskComplete t st.events := by
  cases mediaCount with
  | zero =>
    simp only [create_carousel_ad]
    split
    · next e st1 heq =>
      have h1 : st1.events = st.events := by
        have h0 := events_checkpoint tid sched st
        rw [heq] at h0
        exact h0
      simp [h1]
    · next u st1 heq =>
      have h1 : st1.events = st.events := by
        have h0 := events_checkpoint tid sched st
        rw [heq] at h0
        exact h0
      simp [h1]
  | succ n =>
    simp only [create_carousel_ad]
    split
    · next e st1 heq =>
      have h1 : st1.events = st.events := by
        have h0 := events_checkpoint tid sched st
        rw [heq] at h0
        exact h0
      simp [h1]
    · next u st1 heq =>
      have h1 : st1.events = st.events := by
        have h0 := events_checkpoint tid sched st
        rw [heq] at h0
        exact h0
      split
      · next e2 st2 heq2 =>
        have h2 : st2.events = st1.events := by
          have h0 := events_checkpoint tid sched st1
          rw [heq2] at h0
          exact h0
        simp [h2, h1]
      · next u2 st2 heq2 =>
        have h2 : st2.events = st1.events := by
          have h0 := events_checkpoint tid sched st1
          rw [heq2] at h0
          exact h0
        split
        · next u3 st3 heq3 =>
          have h3 : countTaskComplete t st3.events = countTaskComplete t st2.events := by
            have h0 := ctc_emit_error t tid ("Error creating carousel ad for task " ++
              tid ++ ": TypeError: coroutine object is not subscriptable") st2
            rw [heq3] at h0
            exact h0
          simp [h3, h2, h1]
        · next e3 st3 heq3 =>
          have h3 : countTaskComplete t st3.events = countTaskComplete t st2.events := by
            have h0 := ctc_emit_error t tid ("Error creating carousel ad for task " ++
              tid ++ ": TypeError: coroutine object is not subscriptable") st2
            rw [heq3] at h0
            exact h0
          simp [h3, h2, h1]

theorem ctc_collect_videos (t tid : TaskId) (futures : List (Except PyErr Unit))
    (sched : Sched) (st : OrchSt) :
    countTaskComplete t (collect_videos tid futures sched st).2.events =
      countTaskComplete t st.events := by
  induction futures generalizing st with
  | nil => rfl
  | cons f rest ih =>
    have hstep : ∀ st1 st2 : OrchSt,
        countTaskComplete t st2.events = countTaskComplete t st1.events →
        ∀ e2 st3, update_progress sched st2 = (Except.error e2, st3) →
        countTaskComplete t st3.events = countTaskComplete t st1.events := by
      intro st1 st2 hev e2 st3 hup
      have h0 := events_update_progress sched st2
      rw [hup] at h0
      rw [show st3.events = st2.events from h0]
      exact hev
    have hok : ∀ st2 : OrchSt, ∀ u2 st3, update_progress sched st2 ≠ (Except.ok u2, st3) := by
      intro st2 u2 st3 hc
      simp [update_progress, timeNow] at hc
    cases f with
    | ok v =>
      simp only [collect_videos]
      split
      · next e st1 heq =>
        have h1 : st1.events = st.events := by
          have h0 := events_checkpoint tid sched st
          rw [heq] at h0
          exact h0
        simp [h1]
      · next u st1 heq =>
        have h1 : st1.events = st.events := by
          have h0 := events_checkpoint tid sched st
          rw [heq] at h0
          exact h0
        split
        · next e2 st3 heq2 =>
          have h3 := hstep st1 st1 rfl e2 st3 heq2
          simp [h3, h1]
        · next u2 st3 heq2 => exact absurd heq2 (hok st1 u2 st3)
    | error e =>
      cases e with
      | taskCanceled tc =>
        simp only [collect_videos]
        split
        · next e st1 heq =>
          have h1 : st1.events = st.events := by
            have h0 := events_checkpoint tid sched st
            rw [heq] at h0
            exact h0
          simp [h1]
        · next u st1 heq =>
          have h1 : st1.events = st.events := by
            have h0 := events_checkpoint tid sched st
            rw [heq] at h0
            exact h0
          split
          · next e2 st3 heq2 =>
            have h3 := hstep st1 st1 rfl e2 st3 heq2
            simp [h3, h1]
          · next u2 st3 heq2 => exact absurd heq2 (hok st1 u2 st3)
      | nameErr n =>
        simp only [collect_videos]
        split
        · next e st1 heq =>
          have h1 : st1.events = st.events := by
            have h0 := events_checkpoint tid sched st
            rw [heq] at h0
            exact h0
          simp [h1]
        · next u st1 heq =>
          have h1 : st1.events = st.events := by
            have h0 := events_checkpoint tid sched st
            rw [heq] at h0
            exact h0
          split
          · next e2 st3 heq2 =>
            have h3 := hstep st1 _ (ctc_append_errorRaw t tid _ st1.events) e2 st3 heq2
            simp [h3, h1]
          · next u2 st3 heq2 => exact absurd heq2 (hok _ u2 st3)
      | attributeErr d =>
        simp only [collect_videos]
        split
        · next e st1 heq =>
          have h1 : st1.events = st.events := by
            have h0 := events_checkpoint tid sched st
            rw [heq] at h0
            exact h0
          simp [h1]
        · next u st1 heq =>
          have h1 : st1.events = st.events := by
            have h0 := events_checkpoint tid sched st
            rw [heq] at h0
            exact h0
          split
          · next e2 st3 heq2 =>
            have h3 := hstep st1 _ (ctc_append_errorRaw t tid _ st1.events) e2 st3 heq2
            simp [h3, h1]
          · next u2 st3 heq2 => exact absurd heq2 (hok _ u2 st3)
      | typeErr d =>
        simp only [collect_videos]
        split
        · next e st1 heq =>
          have h1 : st1.events = st.events := by
            have h0 := events_checkpoint tid sched st
            rw [heq] at h0
            exact h0
          simp [h1]
        · next u st1 heq =>
          have h1 : st1.events = st.events := by
            have h0 := events_checkpoint tid sched st
            rw [heq] at h0
            exact h0
          split
          · next e2 st3 heq2 =>
            have h3 := hstep st1 _ (ctc_append_errorRaw t tid _ st1.events) e2 st3 heq2
            simp [h3, h1]
          · next u2 st3 heq2 => exact absurd heq2 (hok _ u2 st3)
      | keyErr =>
        simp only [collect_videos]
        split
        · next e st1 heq =>
          have h1 : st1.events = st.events := by
            have h0 := events_checkpoint tid sched st
            rw [heq] at h0
            exact h0
          simp [h1]
        · next u st1 heq =>
          have h1 : st1.events = st.events := by
            have h0 := events_checkpoint tid sched st
            rw [heq] at h0
            exact h0
          split
          · next e2 st3 heq2 =>
            have h3 := hstep st1 _ (ctc_append_errorRaw t tid _ st1.events) e2 st3 heq2
            simp [h3, h1]
          · next u2 st3 heq2 => exact absurd heq2 (hok _ u2 st3)
      | indexErr =>
        simp only [collect_videos]
        split
        · next e st1 heq =>
          have h1 : st1.events = st.events := by
            have h0 := events_checkpoint tid sched st
            rw [heq] at h0
            exact h0
          simp [h1]
        · next u st1 heq =>
          have h1 : st1.events = st.events := by
            have h0 := events_checkpoint tid sched st
            rw [heq] at h0
            exact h0
          split
          · next e2 st3 heq2 =>
            have h3 := hstep st1 _ (ctc_append_errorRaw t tid _ st1.events) e2 st3 heq2
            simp [h3, h1]
          · next u2 st3 heq2 => exact absurd heq2 (hok _ u2 st3)

theorem ctc_process_video_files (t tid : TaskId) (fmt : AdFormat) (g : GroupEnv)
    (sched : Sched) (st : OrchSt) :
    countTaskComplete t (process_video_files tid fmt g sched st).2.events =
      countTaskComplete t st.events := by
  cases fmt with
  | singleImageOrVideo =>
    simp only [process_video_files]
    rw [ctc_collect_videos, ctc_run_workers]
  | carousel => exact ctc_create_carousel_ad t tid g.units.length sched st
  | otherFormat => rfl

theorem ctc_process_groups_video (t tid : TaskId) (fmt : AdFormat)
    (groups : List GroupEnv) (sched : Sched) (st : OrchSt) :
    countTaskComplete t (process_groups_video tid fmt groups sched st).2.events =
      countTaskComplete t st.events := by
  induction groups generalizing st with
  | nil => rfl
  | cons g rest ih =>
    simp only [process_groups_video]
    split
    · exact ih st
    · split
      · next e st1 heq =>
        have h1 : countTaskComplete t st1.events = countTaskComplete t st.events := by
          have h0 := ctc_create_ad_set t tid g.remote sched st
          rw [heq] at h0
          exact h0
        simp [h1]
      · next st1 heq =>
        have h1 : countTaskComplete t st1.events = countTaskComplete t st.events := by
          have h0 := ctc_create_ad_set t tid g.remote sched st
          rw [heq] at h0
          exact h0
        rw [ih st1, h1]
      · next st1 heq =>
        have h1 : countTaskComplete t st1.events = countTaskComplete t st.events := by
          have h0 := ctc_create_ad_set t tid g.remote sched st
          rw [heq] at h0
          exact h0
        split
        · next e2 st2 heq2 =>
          have h2 : countTaskComplete t st2.events = countTaskComplete t st1.events := by
            have h0 := ctc_process_video_files t tid fmt g sched st1
            rw [heq2] at h0
            exact h0
          simp [h2, h1]
        · next u2 st2 heq2 =>
          have h2 : countTaskComplete t st2.events = countTaskComplete t st1.events := by
            have h0 := ctc_process_video_files t tid fmt g sched st1
            rw [heq2] at h0
            exact h0
          rw [ih st2, h2, h1]

theorem ctc_process_folders_video (t tid : TaskId) (fmt : AdFormat)
    (folders : List (List GroupEnv)) (sched : Sched) (st : OrchSt) :
    countTaskComplete t (process_folders_video tid fmt folders sched st).2.events =
      countTaskComplete t st.events := by
  induction folders generalizing st with
  | nil => rfl
  | cons f rest ih =>
    simp only [process_folders_video]
    split
    · next e st1 heq =>
      have h1 : st1.events = st.events := by
        have h0 := events_checkpoint tid sched st
        rw [heq] at h0
        exact h0
      simp [h1]
    · next u st1 heq =>
      have h1 : st1.events = st.events := by
        have h0 := events_checkpoint tid sched st
        rw [heq] at h0
        exact h0
      split
      · next e2 st2 heq2 =>
        have h2 : countTaskComplete t st2.events = countTaskComplete t st1.events := by
          have h0 := ctc_process_groups_video t tid fmt f sched st1
          rw [heq2] at h0
          exact h0
        simp [h2, h1]
      · next u2 st2 heq2 =>
        have h2 : countTaskComplete t st2.events = countTaskComplete t st1.events := by
          have h0 := ctc_process_groups_video t tid fmt f sched st1
          rw [heq2] at h0
          exact h0
        rw [ih st2, h2, h1]

theorem ctc_update_progress_media (t tid : TaskId) (total processed : Nat)
    (lastUpdateTime : ℚ) (sched : Sched) (st : OrchSt) :
    countTaskComplete t
        (update_progress_media tid total processed lastUpdateTime sched st).events =
      countTaskComplete t st.events := by
  simp only [update_progress_media, emit_progress, timeNow]
  split
  · simp [countTaskComplete_append, countTaskComplete, isTaskComplete]
  · rfl

theorem ctc_collect_media (t tid : TaskId) (futures : List (Except PyErr Unit))
    (total processedFiles : Nat) (lastUpdateTime : ℚ) (sched : Sched) (st : OrchSt) :
    countTaskComplete t
        (collect_media tid futures total processedFiles lastUpdateTime sched st).2.events =
      countTaskComplete t st.events := by
  induction futures generalizing processedFiles st with
  | nil => rfl
  | cons f rest ih =>
    have hupd : ∀ (p : Nat) (st2 st1 : OrchSt),
        countTaskComplete t st2.events = countTaskComplete t st1.events →
        countTaskComplete t
            (update_progress_media tid total p lastUpdateTime sched st2).events =
          countTaskComplete t st1.events := by
      intro p st2 st1 hev
      rw [ctc_update_progress_media]
      exact hev
    cases f with
    | ok v =>
      simp only [collect_media]
      split
      · next e st1 heq =>
        have h1 : st1.events = st.events := by
          have h0 := events_checkpoint tid sched st
          rw [heq] at h0
          exact h0
        simp [h1]
      · next u st1 heq =>
        have h1 : st1.events = st.events := by
          have h0 := events_checkpoint tid sched st
          rw [heq] at h0
          exact h0
        rw [ih, hupd _ st1 st1 rfl, h1]
    | error e =>
      cases e with
      | taskCanceled tc =>
        simp only [collect_media]
        split
        · next e st1 heq =>
          have h1 : st1.events = st.events := by
            have h0 := events_checkpoint tid sched st
            rw [heq] at h0
            exact h0
          simp [h1]
        · next u st1 heq =>
          have h1 : st1.events = st.events := by
            have h0 := events_checkpoint tid sched st
            rw [heq] at h0
            exact h0
          rw [hupd _ st1 st1 rfl, h1]
      | nameErr n =>
        simp only [collect_media]
        split
        · next e st1 heq =>
          have h1 : st1.events = st.events := by
            have h0 := events_checkpoint tid sched st
            rw [heq] at h0
            exact h0
          simp [h1]
        · next u st1 heq =>
          have h1 : st1.events = st.events := by
            have h0 := events_checkpoint tid sched st
            rw [heq] at h0
            exact h0
          rw [ih, hupd _ _ st1 (ctc_append_errorRaw t tid _ st1.events), h1]
      | attributeErr d =>
        simp only [collect_media]
        split
        · next e st1 heq =>
          have h1 : st1.events = st.events := by
            have h0 := events_checkpoint tid sched st
            rw [heq] at h0
            exact h0
          simp [h1]
        · next u st1 heq =>
          have h1 : st1.events = st.events := by
            have h0 := events_checkpoint tid sched st
            rw [heq] at h0
            exact h0
          rw [ih, hupd _ _ st1 (ctc_append_errorRaw t tid _ st1.events), h1]
      | typeErr d =>
        simp only [collect_media]
        split
        · next e st1 heq =>
          have h1 : st1.events = st.events := by
            have h0 := events_checkpoint tid sched st
            rw [heq] at h0
            exact h0
          simp [h1]
        · next u st1 heq =>
          have h1 : st1.events = st.events := by
            have h0 := events_checkpoint tid sched st
            rw [heq] at h0
            exact h0
          rw [ih, hupd _ _ st1 (ctc_append_errorRaw t tid _ st1.events), h1]
      | keyErr =>
        simp only [collect_media]
        split
        · next e st1 heq =>
          have h1 : st1.events = st.events := by
            have h0 := events_checkpoint tid sched st
            rw [heq] at h0
            exact h0
          simp [h1]
        · next u st1 heq =>
          have h1 : st1.events = st.events := by
            have h0 := events_checkpoint tid sched st
            rw [heq] at h0
            exact h0
          rw [ih, hupd _ _ st1 (ctc_append_errorRaw t tid _ st1.events), h1]
      | indexErr =>
        simp only [collect_media]
        split
        · next e st1 heq =>
          have h1 : st1.events = st.events := by
            have h0 := events_checkpoint tid sched st
            rw [heq] at h0
            exact h0
          simp [h1]
        · next u st1 heq =>
          have h1 : st1.events = st.events := by
            have h0 := events_checkpoint tid sched st
            rw [heq] at h0
            exact h0
          rw [ih, hupd _ _ st1 (ctc_append_errorRaw t tid _ st1.events), h1]

theorem ctc_process_media_files (t tid : TaskId) (fmt : AdFormat) (g : GroupEnv)
    (total processedFiles : Nat) (lastUpdateTime : ℚ) (sched : Sched) (st : OrchSt) :
    countTaskComplete t
        (process_media_files tid fmt g total processedFiles lastUpdateTime sched
          st).2.events =
      countTaskComplete t st.events := by
  cases fmt with
  | singleImageOrVideo =>
    simp only [process_media_files]
    rw [ctc_collect_media, ctc_run_workers]
  | carousel => exact ctc_create_carousel_ad t tid g.units.length sched st
  | otherFormat => rfl

theorem ctc_process_groups_media (t tid : TaskId) (fmt : AdFormat)
    (groups : List GroupEnv) (total processedFiles : Nat) (lastUpdateTime : ℚ)
    (sched : Sched) (st : OrchSt) :
    countTaskComplete t
        (process_groups_media tid fmt groups total processedFiles lastUpdateTime sched
          st).2.events =
      countTaskComplete t st.events := by
  induction groups generalizing st with
  | nil => rfl
  | cons g rest ih =>
    simp only [process_groups_media]
    split
    · exact ih st
    · split
      · next e st1 heq =>
        have h1 : countTaskComplete t st1.events = countTaskComplete t st.events := by
          have h0 := ctc_create_ad_set t tid g.remote sched st
          rw [heq] at h0
          exact h0
        simp [h1]
      · next st1 heq =>
        have h1 : countTaskComplete t st1.events = countTaskComplete t st.events := by
          have h0 := ctc_create_ad_set t tid g.remote sched st
          rw [heq] at h0
          exact h0
        rw [ih st1, h1]
      · next st1 heq =>
        have h1 : countTaskComplete t st1.events = countTaskComplete t st.events := by
          have h0 := ctc_create_ad_set t tid g.remote sched st
          rw [heq] at h0
          exact h0
        split
        · next e2 st2 heq2 =>
          have h2 : countTaskComplete t st2.events = countTaskComplete t st1.events := by
            have h0 := ctc_process_media_files t tid fmt g total processedFiles
              lastUpdateTime sched st1
            rw [heq2] at h0
            exact h0
          simp [h2, h1]
        · next u2 st2 heq2 =>
          have h2 : countTaskComplete t st2.events = countTaskComplete t st1.events := by
            have h0 := ctc_process_media_files t tid fmt g total processedFiles
              lastUpdateTime sched st1
            rw [heq2] at h0
            exact h0
          rw [ih st2, h2, h1]

theorem ctc_process_folders_media (t tid : TaskId) (fmt : AdFormat)
    (folders : List (List GroupEnv)) (total processedFiles : Nat)
    (lastUpdateTime : ℚ) (sched : Sched) (st : OrchSt) :
    countTaskComplete t
        (process_folders_media tid fmt folders total processedFiles lastUpdateTime sched
          st).2.events =
      countTaskComplete t st.events := by
  induction folders generalizing st with
  | nil => rfl
  | cons f rest ih =>
    simp only [process_folders_media]
    split
    · next e st1 heq =>
      have h1 : st1.events = st.events := by
        have h0 := events_checkpoint tid sched st
        rw [heq] at h0
        exact h0
      simp [h1]
    · next u st1 heq =>
      have h1 : st1.events = st.events := by
        have h0 := events_checkpoint tid sched st
        rw [heq] at h0
        exact h0
      split
      · next e2 st2 heq2 =>
        have h2 : countTaskComplete t st2.events = countTaskComplete t st1.events := by
          have h0 := ctc_process_groups_media t tid fmt f total processedFiles
            lastUpdateTime sched st1
          rw [heq2] at h0
          exact h0
        simp [h2, h1]
      · next u2 st2 heq2 =>
        have h2 : countTaskComplete t st2.events = countTaskComplete t st1.events := by
          have h0 := ctc_process_groups_media t tid fmt f total processedFiles
            lastUpdateTime sched st1
          rw [heq2] at h0
          exact h0
        rw [ih st2, h2, h1]

theorem ctc_process_videos_body (tid : TaskId) (fmt : AdFormat)
    (folders : List (List GroupEnv)) (sched : Sched) (st : OrchSt) :
    countTaskComplete tid (process_videos_body tid fmt folders sched st).2.events =
      countTaskComplete tid st.events +
        isOkFlag (process_videos_body tid fmt folders sched st).1 := by
  have hbase : countTaskComplete tid
      ((timeNow sched (emit_progress tid 0 (totalUnitsOf folders) 0 st)).2).events =
      countTaskComplete tid st.events := by
    simp [timeNow, emit_progress, countTaskComplete_append, countTaskComplete,
      isTaskComplete]
  simp only [process_videos_body]
  split
  · next e st2 heq =>
    have h2 : countTaskComplete tid st2.events = countTaskComplete tid st.events := by
      have h0 := ctc_process_folders_video tid tid fmt folders sched
        ((timeNow sched (emit_progress tid 0 (totalUnitsOf folders) 0 st)).2)
      rw [heq] at h0
      exact h0.trans hbase
    simp [h2, isOkFlag]
  · next u st2 heq =>
    have h2 : countTaskComplete tid st2.events = countTaskComplete tid st.events := by
      have h0 := ctc_process_folders_video tid tid fmt folders sched
        ((timeNow sched (emit_progress tid 0 (totalUnitsOf folders) 0 st)).2)
      rw [heq] at h0
      exact h0.trans hbase
    simp [emit_task_complete, emit_progress, countTaskComplete_append,
      countTaskComplete, isTaskComplete, isOkFlag]
    simpa [countTaskComplete] using h2

theorem ctc_process_mixed_media_body (tid : TaskId) (fmt : AdFormat)
    (folders : List (List GroupEnv)) (sched : Sched) (st : OrchSt) :
    countTaskComplete tid (process_mixed_media_body tid fmt folders sched st).2.events =
      countTaskComplete tid st.events +
        isOkFlag (process_mixed_media_body tid fmt folders sched st).1 := by
  have hbase : countTaskComplete tid
      ((timeNow sched (emit_progress tid 0 (totalUnitsOf folders) 0 st)).2).events =
      countTaskComplete tid st.events := by
    simp [timeNow, emit_progress, countTaskComplete_append, countTaskComplete,
      isTaskComplete]
  simp only [process_mixed_media_body]
  split
  · next e st2 heq =>
    have h2 : countTaskComplete tid st2.events = countTaskComplete tid st.events := by
      have h0 := ctc_process_folders_media tid tid fmt folders
        (totalUnitsOf folders) 0
        ((timeNow sched (emit_progress tid 0 (totalUnitsOf folders) 0 st)).1) sched
        ((timeNow sched (emit_progress tid 0 (totalUnitsOf folders) 0 st)).2)
      rw [heq] at h0
      exact h0.trans hbase
    simp [h2, isOkFlag]
  · next u st2 heq =>
    have h2 : countTaskComplete tid st2.events = countTaskComplete tid st.events := by
      have h0 := ctc_process_folders_media tid tid fmt folders
        (totalUnitsOf folders) 0
        ((timeNow sched (emit_progress tid 0 (totalUnitsOf folders) 0 st)).1) sched
        ((timeNow sched (emit_progress tid 0 (totalUnitsOf folders) 0 st)).2)
      rw [heq] at h0
      exact h0.trans hbase
    simp [emit_task_complete, emit_progress, countTaskComplete_append,
      countTaskComplete, isTaskComplete, isOkFlag]
    simpa [countTaskComplete] using h2

/-- C1 counterexample: a task_complete event is emitted for a run during
which a cancellation was observed.  One folder with one single-video group
in the Carousel format; the task is started and a CancelBatch request fires
between the checkpoint at the top of create_carousel_ad (line 772) and the
per-card checkpoint at line 781.  The run observes the cancellation exactly
once (the destructive check consumes the mark, so the canceled set ends
empty, and the cancel request really ran: upload_tasks["t1"] was flipped to
False), the raised TaskCanceledException is swallowed by the except at line
805, the run then finishes normally, and exactly one task_complete event is
emitted — contradicting that task_complete is never emitted when a
cancellation is observed by any worker or checkpoint during the run. -/
theorem task_complete_emitted_for_canceled_run :
    c1run.cancelsObserved = 1 ∧ c1run.regs.canceledTasks = [] ∧
    c1run.regs.uploadTasks = [("t1", false)] ∧
    countTaskComplete "t1" c1run.events = 1 :=
  ⟨rfl, rfl, rfl, rfl⟩

/-- C1 amended: in both orchestrator paths, exactly one task_complete event
is emitted when the try-body of the orchestrator runs to completion, and
none otherwise.  The body fails to complete when a TaskCanceledException
reaches it from an orchestrator-level checkpoint (the folder loop, the
collection loop, or the checkpoint before a unit or group body whose raise
propagates) or when any other exception reaches it — but a cancellation
observed at a checkpoint whose exception is swallowed inside a unit
executor (create_ad's future caught at lines 1202-1204 with a bare return,
create_carousel_ad's except at line 805) does not prevent the body from
completing, and task_complete is then emitted anyway (see the
counterexample). -/
theorem task_complete_iff_body_completes :
    (∀ tid fmt folders sched st,
      countTaskComplete tid (process_videos tid fmt folders sched st).events =
        countTaskComplete tid st.events +
          isOkFlag (process_videos_body tid fmt folders sched st).1) ∧
    (∀ tid fmt folders sched st,
      countTaskComplete tid (process_mixed_media tid fmt folders sched st).events =
        countTaskComplete tid st.events +
          isOkFlag (process_mixed_media_body tid fmt folders sched st).1) := by
  constructor
  · intro tid fmt folders sched st
    simp only [process_videos]
    split
    · show countTaskComplete tid
          (process_videos_body tid fmt folders sched st).2.events =
        countTaskComplete tid st.events +
          isOkFlag (process_videos_body tid fmt folders sched st).1
      rw [ctc_process_videos_body]
    · show countTaskComplete tid
          (process_videos_body tid fmt folders sched st).2.events =
        countTaskComplete tid st.events +
          isOkFlag (process_videos_body tid fmt folders sched st).1
      rw [ctc_process_videos_body]
    · next e heq hne =>
      show countTaskComplete tid
          ((process_videos_body tid fmt folders sched st).2.events ++
            [Ev.errorRaw tid (pyStr e)]) =
        countTaskComplete tid st.events +
          isOkFlag (process_videos_body tid fmt folders sched st).1
      rw [countTaskComplete_append, ctc_process_videos_body]
      simp [countTaskComplete, isTaskComplete]
  · intro tid fmt folders sched st
    simp only [process_mixed_media]
    split
    · show countTaskComplete tid
          (process_mixed_media_body tid fmt folders sched st).2.events =
        countTaskComplete tid st.events +
          isOkFlag (process_mixed_media_body tid fmt folders sched st).1
      rw [ctc_process_mixed_media_body]
    · show countTaskComplete tid
          (process_mixed_media_body tid fmt folders sched st).2.events =
        countTaskComplete tid st.events +
          isOkFlag (process_mixed_media_body tid fmt folders sched st).1
      rw [ctc_process_mixed_media_body]
    · next e heq hne =>
      show countTaskComplete tid
          ((process_mixed_media_body tid fmt folders sched st).2.events ++
            [Ev.errorRaw tid (pyStr e)]) =
        countTaskComplete tid st.events +
          isOkFlag (process_mixed_media_body tid fmt folders sched st).1
      rw [countTaskComplete_append, ctc_process_mixed_media_body]
      simp [countTaskComplete, isTaskComplete]

/-! ### Failure isolation in one work group (no concurrent cancellation) -/

theorem checkpoint_no_cancel (tid : TaskId) (sched : Sched) (st : OrchSt)
    (hsc : sched.cancelAt = none) (hnc : tid ∉ st.regs.canceledTasks) :
    checkpoint tid sched st = (Except.ok (), { st with steps := st.steps + 1 }) := by
  simp only [checkpoint, schedTick, hsc]
  rw [if_neg (by simp)]
  simp [check_cancellation, hnc]

theorem update_progress_eq (sched : Sched) (st : OrchSt) :
    update_progress sched st =
      (Except.error (PyErr.nameErr "last_update_time"),
        { st with pbarN := st.pbarN + 1, clockIdx := st.clockIdx + 1 }) := rfl

theorem create_ad_fail_no_cancel (tid : TaskId) (sched : Sched)
    (st : OrchSt) (p : JVal × JVal)
    (hsc : sched.cancelAt = none) (hnc : tid ∉ st.regs.canceledTasks)
    (hbenign : emit_error_payload ("Error creating ad for task " ++ tid ++ ": " ++
      utmTypeErrText) = Except.ok p) :
    create_ad tid UnitBody.mediaFile sched st =
      (Except.ok (),
        { st with
            steps := st.steps + 1,
            events := st.events ++ [Ev.errorEv tid p.1 p.2],
            adsFinished := st.adsFinished + 1 }) := by
  simp only [create_ad, emit_error]
  rw [checkpoint_no_cancel tid sched st hsc hnc, hbenign]

theorem run_workers_append (tid : TaskId) (l1 l2 : List UnitBody) (sched : Sched)
    (st : OrchSt) :
    run_workers tid (l1 ++ l2) sched st =
      ((run_workers tid l1 sched st).1 ++
        (run_workers tid l2 sched (run_workers tid l1 sched st).2).1,
        (run_workers tid l2 sched (run_workers tid l1 sched st).2).2) := by
  induction l1 generalizing st with
  | nil => rfl
  | cons u rest ih =>
    have h := ih ((create_ad tid u sched st).2)
    simp only [List.cons_append, run_workers]
    rw [Prod.mk.injEq]
    rw [show List.append rest l2 = rest ++ l2 from List.append_eq_has_append]
    constructor
    · rw [h]
    · rw [h]

theorem run_workers_all_fail (tid : TaskId) (n : Nat) (sched : Sched) (st : OrchSt)
    (p : JVal × JVal)
    (hsc : sched.cancelAt = none) (hnc : tid ∉ st.regs.canceledTasks)
    (hbenign : emit_error_payload ("Error creating ad for task " ++ tid ++ ": " ++
      utmTypeErrText) = Except.ok p) :
    run_workers tid (List.replicate n UnitBody.mediaFile) sched st =
      (List.replicate n (Except.ok ()),
        { st with
            steps := st.steps + n,
            events := st.events ++ List.replicate n (Ev.errorEv tid p.1 p.2),
            adsFinished := st.adsFinished + n }) := by
  revert hnc
  induction n generalizing st with
  | zero => intro hnc; simp [run_workers]
  | succ m ih =>
    intro hnc
    rw [List.replicate_succ]
    simp only [run_workers]
    rw [create_ad_fail_no_cancel tid sched st p hsc hnc hbenign]
    rw [ih { st with
        steps := st.steps + 1,
        events := st.events ++ [Ev.errorEv tid p.1 p.2],
        adsFinished := st.adsFinished + 1 } hnc]
    rw [Prod.mk.injEq]
    constructor
    · rw [List.replicate_succ]
    · rw [OrchSt.mk.injEq]
      refine ⟨rfl, ?_, rfl, rfl, rfl, ?_, rfl, ?_, rfl⟩
      · show (st.events ++ [Ev.errorEv tid p.1 p.2]) ++
            List.replicate m (Ev.errorEv tid p.1 p.2) =
          st.events ++ List.replicate (m + 1) (Ev.errorEv tid p.1 p.2)
        rw [List.append_assoc, List.replicate_succ, List.singleton_append]
      · show st.steps + 1 + m = st.steps + (m + 1)
        omega
      · show st.adsFinished + 1 + m = st.adsFinished + (m + 1)
        omega

theorem collect_videos_all_ok_aborts (tid : TaskId) (n : Nat) (sched : Sched)
    (st : OrchSt) (hsc : sched.cancelAt = none) (hnc : tid ∉ st.regs.canceledTasks) :
    collect_videos tid (List.replicate (n + 1) (Except.ok ())) sched st =
      (Except.error (PyErr.nameErr "last_update_time"),
        { st with
            steps := st.steps + 1,
            pbarN := st.pbarN + 1,
            clockIdx := st.clockIdx + 1 }) := by
  rw [List.replicate_succ]
  simp only [collect_videos, checkpoint_no_cancel tid sched st hsc hnc, update_progress,
    timeNow]

theorem cee_replicate (tid : TaskId) (a b : JVal) (k : Nat) :
    countErrorEvents tid (List.replicate k (Ev.errorEv tid a b)) = k := by
  induction k with
  | zero => rfl
  | succ m ih =>
    rw [List.replicate_succ]
    simp only [countErrorEvents, isErrorEvent, List.filter_cons] at ih ⊢
    simp [ih]

/-- C8 counterexample: in the video path, a group of two units, with no
cancellation in flight.  Both bodies run to completion in the pool and each
raises the generate_link_with_utm TypeError, caught at the create_ad
boundary and reported as its own error event — two error events, never one,
so a run in which exactly one unit of the group fails cannot be realised;
and the collection loop of process_video_files terminates at its first
completed future with a NameError from update_progress (no cancellation
signal was observed), having recorded only one of the two units in the
progress bar. -/
theorem all_units_fail_and_collection_aborts :
    countErrorEvents "t1" c8run.2.events = 2 ∧
    c8run.2.adsFinished = 2 ∧
    c8run.1 = Except.error (PyErr.nameErr "last_update_time") ∧
    c8run.2.pbarN = 1 ∧
    c8run.2.cancelsObserved = 0 :=
  ⟨rfl, rfl, rfl, rfl, rfl⟩

/-- C8 amended: in a video-path group of n + 1 units, every unit's body
runs to completion in the pool regardless of the failures of its siblings —
each body raises the generate_link_with_utm TypeError (as every body does),
which the except at line 646 catches and converts into exactly one error
event per unit, so the workers really are failure-isolated; but the
collection loop then stops at the first completed future with a NameError
raised inside update_progress (not by a cancellation: no checkpoint
observed one), recording exactly one unit, so processing never continues
with the remaining files as the claim describes. -/
theorem unit_failures_isolated_but_recording_aborts (tid : TaskId) (n : Nat)
    (remote : GroupRemote) (sched : Sched) (st : OrchSt) (p : JVal × JVal)
    (hsc : sched.cancelAt = none) (hnc : tid ∉ st.regs.canceledTasks)
    (hbenign : emit_error_payload ("Error creating ad for task " ++ tid ++ ": " ++
      utmTypeErrText) = Except.ok p) :
    countErrorEvents tid
        (process_video_files tid AdFormat.singleImageOrVideo
          ⟨List.replicate (n + 1) UnitBody.mediaFile, remote⟩
          sched st).2.events =
      countErrorEvents tid st.events + (n + 1) ∧
    (process_video_files tid AdFormat.singleImageOrVideo
        ⟨List.replicate (n + 1) UnitBody.mediaFile, remote⟩
        sched st).2.adsFinished = st.adsFinished + (n + 1) ∧
    (process_video_files tid AdFormat.singleImageOrVideo
        ⟨List.replicate (n + 1) UnitBody.mediaFile, remote⟩
        sched st).1 = Except.error (PyErr.nameErr "last_update_time") ∧
    (process_video_files tid AdFormat.singleImageOrVideo
        ⟨List.replicate (n + 1) UnitBody.mediaFile, remote⟩
        sched st).2.pbarN = st.pbarN + 1 ∧
    (process_video_files tid AdFormat.singleImageOrVideo
        ⟨List.replicate (n + 1) UnitBody.mediaFile, remote⟩
        sched st).2.cancelsObserved = st.cancelsObserved := by
  have hw := run_workers_all_fail tid (n + 1) sched st p hsc hnc hbenign
  simp only [process_video_files]
  rw [hw]
  rw [collect_videos_all_ok_aborts tid n sched _ hsc (by exact hnc)]
  refine ⟨?_, rfl, rfl, rfl, rfl⟩
  show countErrorEvents tid
      (st.events ++ List.replicate (n + 1) (Ev.errorEv tid p.1 p.2)) =
    countErrorEvents tid st.events + (n + 1)
  have h2 := cee_replicate tid p.1 p.2 (n + 1)
  simp only [countErrorEvents] at h2 ⊢
  rw [List.filter_append, List.length_append, h2]

/-- Witness for C8 amended, at a concrete two-unit group. -/
theorem unit_failures_isolated_witness :
    countErrorEvents "t2"
        (process_video_files "t2" AdFormat.singleImageOrVideo
          ⟨List.replicate 2 UnitBody.mediaFile, GroupRemote.adSetCreated⟩
          schedPlain (initSt ⟨[], [("t2", true)], []⟩)).2.events =
      countErrorEvents "t2" (initSt ⟨[], [("t2", true)], []⟩).events + 2 ∧
    (process_video_files "t2" AdFormat.singleImageOrVideo
        ⟨List.replicate 2 UnitBody.mediaFile, GroupRemote.adSetCreated⟩
        schedPlain (initSt ⟨[], [("t2", true)], []⟩)).2.adsFinished =
      (initSt ⟨[], [("t2", true)], []⟩).adsFinished + 2 := by
  have h := unit_failures_isolated_but_recording_aborts "t2" 1
    GroupRemote.adSetCreated schedPlain (initSt ⟨[], [("t2", true)], []⟩)
    (JVal.jstr default_error_title,
      JVal.jstr ("Error creating ad for task t2: " ++ utmTypeErrText))
    rfl (by decide) rfl
  exact ⟨h.1, h.2.1⟩

/-! ### Progress-step lemmas for the orchestration model -/

theorem progressSteps_append (a b : List Ev) :
    progressSteps (a ++ b) = progressSteps a ++ progressSteps b := by
  simp [progressSteps, List.filterMap_append]

theorem ps_append_errorRaw (tid : TaskId) (msg : String) (evs : List Ev) :
    progressSteps (evs ++ [Ev.errorRaw tid msg]) = progressSteps evs := by
  simp [progressSteps_append, progressSteps]

theorem ps_emit_error (tid : TaskId) (message : String) (st : OrchSt) :
    progressSteps (emit_error tid message st).2.events = progressSteps st.events := by
  simp only [emit_error]
  cases emit_error_payload message with
  | ok p => simp [progressSteps_append, progressSteps]
  | error e => rfl

theorem ps_create_ad (tid : TaskId) (body : UnitBody) (sched : Sched) (st : OrchSt) :
    progressSteps (create_ad tid body sched st).2.events = progressSteps st.events := by
  simp only [create_ad]
  split
  · next e st1 heq =>
    have h1 : st1.events = st.events := by
      have h0 := events_checkpoint tid sched st
      rw [heq] at h0
      exact h0
    simp [h1]
  · next u st1 heq =>
    have h1 : st1.events = st.events := by
      have h0 := events_checkpoint tid sched st
      rw [heq] at h0
      exact h0
    split
    · next u2 st2 heq2 =>
      have h2 : progressSteps st2.events = progressSteps st1.events := by
        have h0 := ps_emit_error tid
          ("Error creating ad for task " ++ tid ++ ": " ++ utmTypeErrText) st1
        rw [heq2] at h0
        exact h0
      simp [h2, h1]
    · next e2 st2 heq2 =>
      have h2 : progressSteps st2.events = progressSteps st1.events := by
        have h0 := ps_emit_error tid
          ("Error creating ad for task " ++ tid ++ ": " ++ utmTypeErrText) st1
        rw [heq2] at h0
        exact h0
      simp [h2, h1]

theorem ps_run_workers (tid : TaskId) (units : List UnitBody) (sched : Sched)
    (st : OrchSt) :
    progressSteps (run_workers tid units sched st).2.events =
      progressSteps st.events := by
  induction units generalizing st with
  | nil => rfl
  | cons u rest ih =>
    simp only [run_workers]
    rw [ih]
    exact ps_create_ad tid u sched st

theorem run_workers_len (tid : TaskId) (units : List UnitBody) (sched : Sched)
    (st : OrchSt) :
    (run_workers tid units sched st).1.length = units.length := by
  induction units generalizing st with
  | nil => rfl
  | cons u rest ih =>
    simp only [run_workers, List.length_cons]
    rw [ih]

theorem ps_create_ad_set (tid : TaskId) (outcome : GroupRemote) (sched : Sched)
    (st : OrchSt) :
    progressSteps (create_ad_set tid outcome sched st).2.events =
      progressSteps st.events := by
  cases outcome with
  | adSetCreated =>
    simp only [create_ad_set]
    split
    · next e st1 heq =>
      have h1 : st1.events = st.events := by
        have h0 := events_checkpoint tid sched st
        rw [heq] at h0
        exact h0
      simp [h1]
    · next u st1 heq =>
      have h1 : st1.events = st.events := by
        have h0 := events_checkpoint tid sched st
        rw [heq] at h0
        exact h0
      simp [h1]
  | adSetFails excText =>
    simp only [create_ad_set]
    split
    · next e st1 heq =>
      have h1 : st1.events = st.events := by
        have h0 := events_checkpoint tid sched st
        rw [heq] at h0
        exact h0
      simp [h1]
    · next u st1 heq =>
      have h1 : st1.events = st.events := by
        have h0 := events_checkpoint tid sched st
        rw [heq] at h0
        exact h0
      split
      · next u2 st2 heq2 =>
        have h2 : progressSteps st2.events = progressSteps st1.events := by
          have h0 := ps_emit_error tid ("Error creating ad set: " ++ excText) st1
          rw [heq2] at h0
          exact h0
        simp [h2, h1]
      · next e2 st2 heq2 =>
        have h2 : progressSteps st2.events = progressSteps st1.events := by
          have h0 := ps_emit_error tid ("Error creating ad set: " ++ excText) st1
          rw [heq2] at h0
          exact h0
        simp [h2, h1]

theorem ps_create_carousel_ad (tid : TaskId) (mediaCount : Nat) (sched : Sched)
    (st : OrchSt) :
    progressSteps (create_carousel_ad tid mediaCount sched st).2.events =
      progressSteps st.events := by
  cases mediaCount with
  | zero =>
    simp only [create_carousel_ad]
    split
    · next e st1 heq =>
      have h1 : st1.events = st.events := by
        have h0 := events_checkpoint tid sched st
        rw [heq] at h0
        exact h0
      simp [h1]
    · next u st1 heq =>
      have h1 : st1.events = st.events := by
        have h0 := events_checkpoint tid sched st
        rw [heq] at h0
        exact h0
      simp [h1]
  | succ n =>
    simp only [create_carousel_ad]
    split
    · next e st1 heq =>
      have h1 : st1.events = st.events := by
        have h0 := events_checkpoint tid sched st
        rw [heq] at h0
        exact h0
      simp [h1]
    · next u st1 heq =>
      have h1 : st1.events = st.events := by
        have h0 := events_checkpoint tid sched st
        rw [heq] at h0
        exact h0
      split
      · next e2 st2 heq2 =>
        have h2 : st2.events = st1.events := by
          have h0 := events_checkpoint tid sched st1
          rw [heq2] at h0
          exact h0
        simp [h2, h1]
      · next u2 st2 heq2 =>
        have h2 : st2.events = st1.events := by
          have h0 := events_checkpoint tid sched st1
          rw [heq2] at h0
          exact h0
        split
        · next u3 st3 heq3 =>
          have h3 : progressSteps st3.events = progressSteps st2.events := by
            have h0 := ps_emit_error tid ("Error creating carousel ad for task " ++
              tid ++ ": TypeError: coroutine object is not subscriptable") st2
            rw [heq3] at h0
            exact h0
          simp [h3, h2, h1]
        · next e3 st3 heq3 =>
          have h3 : progressSteps st3.events = progressSteps st2.events := by
            have h0 := ps_emit_error tid ("Error creating carousel ad for task " ++
              tid ++ ": TypeError: coroutine object is not subscriptable") st2
            rw [heq3] at h0
            exact h0
          simp [h3, h2, h1]

theorem chain_le_append_of_le (l1 l2 : List Nat)
    (h1 : List.Chain' (· ≤ ·) l1) (h2 : List.Chain' (· ≤ ·) l2)
    (hlink : ∀ x ∈ l1, ∀ y ∈ l2, x ≤ y) :
    List.Chain' (· ≤ ·) (l1 ++ l2) := by
  rw [List.chain'_append]
  refine ⟨h1, h2, ?_⟩
  intro x hx y hy
  rcases List.mem_getLast?_eq_getLast hx with ⟨hne, hxe⟩
  exact hlink x (by rw [hxe]; exact List.getLast_mem hne) y (List.mem_of_mem_head? hy)

theorem ps_update_progress_media (tid : TaskId) (total q : Nat) (lastUpdateTime : ℚ)
    (sched : Sched) (st : OrchSt) :
    progressSteps (update_progress_media tid total q lastUpdateTime sched st).events =
        progressSteps st.events ∨
      progressSteps (update_progress_media tid total q lastUpdateTime sched st).events =
        progressSteps st.events ++ [q] := by
  simp only [update_progress_media, emit_progress, timeNow]
  split
  · right
    simp [progressSteps_append, progressSteps]
  · left
    rfl

theorem collect_media_events (tid : TaskId) (futures : List (Except PyErr Unit))
    (total : Nat) (lastUpdateTime : ℚ) (sched : Sched) :
    ∀ (p : Nat) (st : OrchSt),
      ∃ emitted : List Nat,
        progressSteps (collect_media tid futures total p lastUpdateTime sched
            st).2.events = progressSteps st.events ++ emitted ∧
        List.Chain' (· ≤ ·) emitted ∧
        ∀ s ∈ emitted, p + 1 ≤ s ∧ s ≤ p + futures.length := by
  induction futures with
  | nil =>
    intro p st
    exact ⟨[], by simp [collect_media], List.chain'_nil, by simp⟩
  | cons f rest ih =>
    intro p st
    have hcons : ∀ (Δ : List Nat),
        List.Chain' (· ≤ ·) Δ → (∀ s ∈ Δ, p + 1 + 1 ≤ s ∧ s ≤ p + 1 + rest.length) →
        List.Chain' (· ≤ ·) ((p + 1) :: Δ) ∧
          ∀ s ∈ (p + 1) :: Δ, p + 1 ≤ s ∧ s ≤ p + (f :: rest).length := by
      intro Δ hch hbd
      constructor
      · exact chain_le_append_of_le [p + 1] Δ (List.chain'_singleton _) hch
          (by
            intro x hx y hy
            have hx' : x = p + 1 := by simpa using hx
            have := (hbd y hy).1
            omega)
      · intro s hs
        rcases List.mem_cons.mp hs with hs | hs
        · subst hs
          simp only [List.length_cons]
          omega
        · have := hbd s hs
          simp only [List.length_cons]
          omega
    cases f with
    | ok v =>
      simp only [collect_media]
      split
      · next e st1 heq =>
        have h1 : st1.events = st.events := by
          have h0 := events_checkpoint tid sched st
          rw [heq] at h0
          exact h0
        exact ⟨[], by simp [h1], List.chain'_nil, by simp⟩
      · next u st1 heq =>
        have h1 : st1.events = st.events := by
          have h0 := events_checkpoint tid sched st
          rw [heq] at h0
          exact h0
        rcases ih (p + 1)
          (update_progress_media tid total (p + 1) lastUpdateTime sched st1) with
          ⟨Δ, hΔ, hch, hbd⟩
        rcases ps_update_progress_media tid total (p + 1) lastUpdateTime sched st1 with
          hu | hu
        · refine ⟨Δ, ?_, hch, ?_⟩
          · rw [hΔ, hu, h1]
          · intro s hs
            have := hbd s hs
            simp only [List.length_cons]
            omega
        · refine ⟨(p + 1) :: Δ, ?_, (hcons Δ hch hbd).1, (hcons Δ hch hbd).2⟩
          rw [hΔ, hu, h1]
          simp
    | error e =>
      cases e with
      | taskCanceled tc =>
        simp only [collect_media]
        split
        · next e2 st1 heq =>
          have h1 : st1.events = st.events := by
            have h0 := events_checkpoint tid sched st
            rw [heq] at h0
            exact h0
          exact ⟨[], by simp [h1], List.chain'_nil, by simp⟩
        · next u st1 heq =>
          have h1 : st1.events = st.events := by
            have h0 := events_checkpoint tid sched st
            rw [heq] at h0
            exact h0
          rcases ps_update_progress_media tid total (p + 1) lastUpdateTime sched st1 with
            hu | hu
          · exact ⟨[], by rw [hu, h1]; simp, List.chain'_nil, by simp⟩
          · refine ⟨[p + 1], by rw [hu, h1], List.chain'_singleton _, ?_⟩
            intro s hs
            have hs' : s = p + 1 := by simpa using hs
            subst hs'
            simp only [List.length_cons]
            omega
      | nameErr n =>
        simp only [collect_media]
        split
        · next e2 st1 heq =>
          have h1 : st1.events = st.events := by
            have h0 := events_checkpoint tid sched st
            rw [heq] at h0
            exact h0
          exact ⟨[], by simp [h1], List.chain'_nil, by simp⟩
        · next u st1 heq =>
          have h1 : st1.events = st.events := by
            have h0 := events_checkpoint tid sched st
            rw [heq] at h0
            exact h0
          rcases ih (p + 1)
            (update_progress_media tid total (p + 1) lastUpdateTime sched
              { st1 with events := st1.events ++
                [Ev.errorRaw tid (pyStr (PyErr.nameErr n))] }) with ⟨Δ, hΔ, hch, hbd⟩
          rcases ps_update_progress_media tid total (p + 1) lastUpdateTime sched
            { st1 with events := st1.events ++
              [Ev.errorRaw tid (pyStr (PyErr.nameErr n))] } with hu | hu
          · refine ⟨Δ, ?_, hch, ?_⟩
            · rw [hΔ, hu]
              simp only []
              rw [ps_append_errorRaw, h1]
            · intro s hs
              have := hbd s hs
              simp only [List.length_cons]
              omega
          · refine ⟨(p + 1) :: Δ, ?_, (hcons Δ hch hbd).1, (hcons Δ hch hbd).2⟩
            rw [hΔ, hu]
            simp only []
            rw [ps_append_errorRaw, h1]
            simp
      | attributeErr d =>
        simp only [collect_media]
        split
        · next e2 st1 heq =>
          have h1 : st1.events = st.events := by
            have h0 := events_checkpoint tid sched st
            rw [heq] at h0
            exact h0
          exact ⟨[], by simp [h1], List.chain'_nil, by simp⟩
        · next u st1 heq =>
          have h1 : st1.events = st.events := by
            have h0 := events_checkpoint tid sched st
            rw [heq] at h0
            exact h0
          rcases ih (p + 1)
            (update_progress_media tid total (p + 1) lastUpdateTime sched
              { st1 with events := st1.events ++
                [Ev.errorRaw tid (pyStr (PyErr.attributeErr d))] }) with ⟨Δ, hΔ, hch, hbd⟩
          rcases ps_update_progress_media tid total (p + 1) lastUpdateTime sched
            { st1 with events := st1.events ++
              [Ev.errorRaw tid (pyStr (PyErr.attributeErr d))] } with hu | hu
          · refine ⟨Δ, ?_, hch, ?_⟩
            · rw [hΔ, hu]
              simp only []
              rw [ps_append_errorRaw, h1]
            · intro s hs
              have := hbd s hs
              simp only [List.length_cons]
              omega
          · refine ⟨(p + 1) :: Δ, ?_, (hcons Δ hch hbd).1, (hcons Δ hch hbd).2⟩
            rw [hΔ, hu]
            simp only []
            rw [ps_append_errorRaw, h1]
            simp
      | typeErr d =>
        simp only [collect_media]
        split
        · next e2 st1 heq =>
          have h1 : st1.events = st.events := by
            have h0 := events_checkpoint tid sched st
            rw [heq] at h0
            exact h0
          exact ⟨[], by simp [h1], List.chain'_nil, by simp⟩
        · next u st1 heq =>
          have h1 : st1.events = st.events := by
            have h0 := events_checkpoint tid sched st
            rw [heq] at h0
            exact h0
          rcases ih (p + 1)
            (update_progress_media tid total (p + 1) lastUpdateTime sched
              { st1 with events := st1.events ++
                [Ev.errorRaw tid (pyStr (PyErr.typeErr d))] }) with ⟨Δ, hΔ, hch, hbd⟩
          rcases ps_update_progress_media tid total (p + 1) lastUpdateTime sched
            { st1 with events := st1.events ++
              [Ev.errorRaw tid (pyStr (PyErr.typeErr d))] } with hu | hu
          · refine ⟨Δ, ?_, hch, ?_⟩
            · rw [hΔ, hu]
              simp only []
              rw [ps_append_errorRaw, h1]
            · intro s hs
              have := hbd s hs
              simp only [List.length_cons]
              omega
          · refine ⟨(p + 1) :: Δ, ?_, (hcons Δ hch hbd).1, (hcons Δ hch hbd).2⟩
            rw [hΔ, hu]
            simp only []
            rw [ps_append_errorRaw, h1]
            simp
      | keyErr =>
        simp only [collect_media]
        split
        · next e2 st1 heq =>
          have h1 : st1.events = st.events := by
            have h0 := events_checkpoint tid sched st
            rw [heq] at h0
            exact h0
          exact ⟨[], by simp [h1], List.chain'_nil, by simp⟩
        · next u st1 heq =>
          have h1 : st1.events = st.events := by
            have h0 := events_checkpoint tid sched st
            rw [heq] at h0
            exact h0
          rcases ih (p + 1)
            (update_progress_media tid total (p + 1) lastUpdateTime sched
              { st1 with events := st1.events ++
                [Ev.errorRaw tid (pyStr PyErr.keyErr)] }) with ⟨Δ, hΔ, hch, hbd⟩
          rcases ps_update_progress_media tid total (p + 1) lastUpdateTime sched
            { st1 with events := st1.events ++
              [Ev.errorRaw tid (pyStr PyErr.keyErr)] } with hu | hu
          · refine ⟨Δ, ?_, hch, ?_⟩
            · rw [hΔ, hu]
              simp only []
              rw [ps_append_errorRaw, h1]
            · intro s hs
              have := hbd s hs
              simp only [List.length_cons]
              omega
          · refine ⟨(p + 1) :: Δ, ?_, (hcons Δ hch hbd).1, (hcons Δ hch hbd).2⟩
            rw [hΔ, hu]
            simp only []
            rw [ps_append_errorRaw, h1]
            simp
      | indexErr =>
        simp only [collect_media]
        split
        · next e2 st1 heq =>
          have h1 : st1.events = st.events := by
            have h0 := events_checkpoint tid sched st
            rw [heq] at h0
            exact h0
          exact ⟨[], by simp [h1], List.chain'_nil, by simp⟩
        · next u st1 heq =>
          have h1 : st1.events = st.events := by
            have h0 := events_checkpoint tid sched st
            rw [heq] at h0
            exact h0
          rcases ih (p + 1)
            (update_progress_media tid total (p + 1) lastUpdateTime sched
              { st1 with events := st1.events ++
                [Ev.errorRaw tid (pyStr PyErr.indexErr)] }) with ⟨Δ, hΔ, hch, hbd⟩
          rcases ps_update_progress_media tid total (p + 1) lastUpdateTime sched
            { st1 with events := st1.events ++
              [Ev.errorRaw tid (pyStr PyErr.indexErr)] } with hu | hu
          · refine ⟨Δ, ?_, hch, ?_⟩
            · rw [hΔ, hu]
              simp only []
              rw [ps_append_errorRaw, h1]
            · intro s hs
              have := hbd s hs
              simp only [List.length_cons]
              omega
          · refine ⟨(p + 1) :: Δ, ?_, (hcons Δ hch hbd).1, (hcons Δ hch hbd).2⟩
            rw [hΔ, hu]
            simp only []
            rw [ps_append_errorRaw, h1]
            simp

theorem units_le_total (folders : List (List GroupEnv)) (f : List GroupEnv)
    (g : GroupEnv) (hf : f ∈ folders) (hg : g ∈ f) :
    g.units.length ≤ totalUnitsOf folders := by
  have h2 : g.units.length ≤ (f.map (fun g => g.units.length)).sum :=
    List.le_sum_of_mem (List.mem_map_of_mem _ hg)
  have h1 : (f.map (fun g => g.units.length)).sum ≤
      (folders.map (fun fo => (fo.map (fun g => g.units.length)).sum)).sum :=
    List.le_sum_of_mem (List.mem_map_of_mem _ hf)
  exact le_trans h2 h1

theorem bound_process_media_files (tid : TaskId) (fmt : AdFormat) (g : GroupEnv)
    (total p : Nat) (lastUpdateTime : ℚ) (sched : Sched) (st : OrchSt) (T : Nat)
    (hbd : ∀ s ∈ progressSteps st.events, s ≤ T)
    (hlen : p + g.units.length ≤ T) :
    ∀ s ∈ progressSteps
        (process_media_files tid fmt g total p lastUpdateTime sched st).2.events,
      s ≤ T := by
  cases fmt with
  | singleImageOrVideo =>
    simp only [process_media_files]
    rcases collect_media_events tid (run_workers tid g.units sched st).1 total
      lastUpdateTime sched p (run_workers tid g.units sched st).2 with ⟨Δ, hΔ, _, hΔbd⟩
    rw [hΔ, ps_run_workers]
    intro s hs
    rcases List.mem_append.mp hs with hs | hs
    · exact hbd s hs
    · have h1 := (hΔbd s hs).2
      have h2 := run_workers_len tid g.units sched st
      omega
  | carousel =>
    simp only [process_media_files]
    intro s hs
    have hs' : s ∈ progressSteps st.events := by
      rw [ps_create_carousel_ad] at hs
      exact hs
    exact hbd s hs'
  | otherFormat =>
    simp only [process_media_files]
    intro s hs
    exact hbd s hs

theorem bound_process_groups_media (tid : TaskId) (fmt : AdFormat)
    (groups : List GroupEnv) (total p : Nat) (lastUpdateTime : ℚ) (sched : Sched) :
    ∀ (st : OrchSt) (T : Nat),
      (∀ s ∈ progressSteps st.events, s ≤ T) →
      (∀ g ∈ groups, p + g.units.length ≤ T) →
      ∀ s ∈ progressSteps
          (process_groups_media tid fmt groups total p lastUpdateTime sched
            st).2.events,
        s ≤ T := by
  induction groups with
  | nil =>
    intro st T hbd _ s hs
    exact hbd s hs
  | cons g rest ih =>
    intro st T hbd hgs
    simp only [process_groups_media]
    split
    · exact ih st T hbd (fun g' hg' => hgs g' (List.mem_cons_of_mem _ hg'))
    · split
      · next e st1 heq =>
        intro s hs
        have h0 := ps_create_ad_set tid g.remote sched st
        rw [heq] at h0
        have hs' : s ∈ progressSteps st1.events := hs
        rw [h0] at hs'
        exact hbd s hs'
      · next st1 heq =>
        have h0 := ps_create_ad_set tid g.remote sched st
        rw [heq] at h0
        exact ih st1 T (fun s hs => hbd s (by rw [h0] at hs; exact hs))
          (fun g' hg' => hgs g' (List.mem_cons_of_mem _ hg'))
      · next st1 heq =>
        have h0 := ps_create_ad_set tid g.remote sched st
        rw [heq] at h0
        have hb1 : ∀ s ∈ progressSteps st1.events, s ≤ T :=
          fun s hs => hbd s (by rw [h0] at hs; exact hs)
        have hb2 := bound_process_media_files tid fmt g total p lastUpdateTime sched
          st1 T hb1 (hgs g (List.mem_cons_self g rest))
        split
        · next e st2 heq2 =>
          intro s hs
          have hs' : s ∈ progressSteps st2.events := hs
          rw [heq2] at hb2
          exact hb2 s hs'
        · next st2 heq2 =>
          rw [heq2] at hb2
          exact ih st2 T (fun s hs => hb2 s hs)
            (fun g' hg' => hgs g' (List.mem_cons_of_mem _ hg'))

theorem bound_process_folders_media (tid : TaskId) (fmt : AdFormat)
    (folders : List (List GroupEnv)) (total p : Nat) (lastUpdateTime : ℚ)
    (sched : Sched) :
    ∀ (st : OrchSt) (T : Nat),
      (∀ s ∈ progressSteps st.events, s ≤ T) →
      (∀ f ∈ folders, ∀ g ∈ f, p + g.units.length ≤ T) →
      ∀ s ∈ progressSteps
          (process_folders_media tid fmt folders total p lastUpdateTime sched
            st).2.events,
        s ≤ T := by
  induction folders with
  | nil =>
    intro st T hbd _ s hs
    exact hbd s hs
  | cons f rest ih =>
    intro st T hbd hfs
    simp only [process_folders_media]
    split
    · next e st1 heq =>
      intro s hs
      have h1 : st1.events = st.events := by
        have h0 := events_checkpoint tid sched st
        rw [heq] at h0
        exact h0
      have hs' : s ∈ progressSteps st1.events := hs
      rw [h1] at hs'
      exact hbd s hs'
    · next u st1 heq =>
      have h1 : st1.events = st.events := by
        have h0 := events_checkpoint tid sched st
        rw [heq] at h0
        exact h0
      have hb1 : ∀ s ∈ progressSteps st1.events, s ≤ T :=
        fun s hs => hbd s (by rw [h1] at hs; exact hs)
      have hb2 := bound_process_groups_media tid fmt f total p lastUpdateTime sched
        st1 T hb1 (fun g hg => hfs f (List.mem_cons_self f rest) g hg)
      split
      · next e st2 heq2 =>
        intro s hs
        have hs' : s ∈ progressSteps st2.events := hs
        rw [heq2] at hb2
        exact hb2 s hs'
      · next st2 heq2 =>
        rw [heq2] at hb2
        exact ih st2 T (fun s hs => hb2 s hs)
          (fun f' hf' g hg => hfs f' (List.mem_cons_of_mem _ hf') g hg)

theorem bound_process_mixed_media_body (tid : TaskId) (fmt : AdFormat)
    (folders : List (List GroupEnv)) (sched : Sched) (regs : Registries) :
    ∀ s ∈ progressSteps
        (process_mixed_media_body tid fmt folders sched (initSt regs)).2.events,
      s ≤ totalUnitsOf folders := by
  have hb0 : ∀ s ∈ progressSteps
      ((timeNow sched
        (emit_progress tid 0 (totalUnitsOf folders) 0 (initSt regs))).2).events,
      s ≤ totalUnitsOf folders := by
    intro s hs
    have hs' : s ∈ ([0] : List Nat) := hs
    have hs0 : s = 0 := by simpa using hs'
    subst hs0
    exact Nat.zero_le _
  have hunits : ∀ f ∈ folders, ∀ g ∈ f,
      0 + g.units.length ≤ totalUnitsOf folders := by
    intro f hf g hg
    have := units_le_total folders f g hf hg
    omega
  have hb := bound_process_folders_media tid fmt folders (totalUnitsOf folders) 0
    ((timeNow sched (emit_progress tid 0 (totalUnitsOf folders) 0 (initSt regs))).1)
    sched
    ((timeNow sched (emit_progress tid 0 (totalUnitsOf folders) 0 (initSt regs))).2)
    (totalUnitsOf folders) hb0 hunits
  simp only [process_mixed_media_body]
  split
  · next e st2 heq =>
    intro s hs
    have hs' : s ∈ progressSteps st2.events := hs
    rw [heq] at hb
    exact hb s hs'
  · next u st2 heq =>
    intro s hs
    rw [heq] at hb
    have hs' : s ∈ progressSteps (st2.events ++
        [Ev.progress tid 100 (totalUnitsOf folders) (totalUnitsOf folders)] ++
        [Ev.taskComplete tid]) := hs
    rw [progressSteps_append, progressSteps_append] at hs'
    rcases List.mem_append.mp hs' with hs2 | hs2
    · rcases List.mem_append.mp hs2 with hs3 | hs3
      · exact hb s hs3
      · have hst : s = totalUnitsOf folders := by simpa [progressSteps] using hs3
        omega
    · simp [progressSteps] at hs2

theorem chain_process_media_files (tid : TaskId) (fmt : AdFormat) (g : GroupEnv)
    (total : Nat) (lastUpdateTime : ℚ) (sched : Sched) (regs : Registries) :
    List.Chain' (fun a b => a ≤ b) (progressSteps
      (process_media_files tid fmt g total 0 lastUpdateTime sched
        (initSt regs)).2.events) := by
  cases fmt with
  | singleImageOrVideo =>
    simp only [process_media_files]
    rcases collect_media_events tid (run_workers tid g.units sched (initSt regs)).1
      total lastUpdateTime sched 0
      (run_workers tid g.units sched (initSt regs)).2 with ⟨Δ, hΔ, hch, _⟩
    rw [hΔ, ps_run_workers]
    exact hch
  | carousel =>
    simp only [process_media_files]
    rw [ps_create_carousel_ad]
    exact List.chain'_nil
  | otherFormat =>
    simp only [process_media_files]
    exact List.chain'_nil

unseal Rat.sub Rat.add Rat.mul Rat.inv Rat.ofScientific in
/-- C2 counterexample: in the mixed-media path the step counts of the
progress events of one task are not monotone over the run.  Two folders of
single-image groups (two units, then one unit, total three): processed_files
is passed to the folder workers by value and never written back, so the
second folder's collection restarts the count at zero and its progress event
carries step 1 after step 2 was already reported; the emitted step sequence
is 0, 1, 2, 1, 3. -/
theorem progress_steps_reset_across_groups :
    progressSteps c2run.events = [0, 1, 2, 1, 3] ∧
    ¬ List.Chain' (fun a b => a ≤ b) (progressSteps c2run.events) := by
  have h : progressSteps c2run.events = [0, 1, 2, 1, 3] := rfl
  refine ⟨h, ?_⟩
  rw [h]
  simp only [List.chain'_cons, List.chain'_singleton, and_true]
  omega

/-- C2: the bound holds and per-group monotonicity holds, but global
monotonicity does not.  (a) Every step count carried by a progress event of
a mixed-media run is at most the task's total unit count.  (b) Within one
work group (one process_media_files call, entered with processed_files = 0
as the code always does), the step counts are monotonically non-decreasing.
Across consecutive groups the count resets, so the claimed monotonicity
over the whole task fails — see the counterexample. -/
theorem progress_steps_bounded_and_group_monotone :
    (∀ (tid : TaskId) (fmt : AdFormat) (folders : List (List GroupEnv))
        (sched : Sched) (regs : Registries),
      ∀ s ∈ progressSteps
          (process_mixed_media tid fmt folders sched (initSt regs)).events,
        s ≤ totalUnitsOf folders) ∧
    (∀ (tid : TaskId) (fmt : AdFormat) (g : GroupEnv) (total : Nat)
        (lastUpdateTime : ℚ) (sched : Sched) (regs : Registries),
      List.Chain' (fun a b => a ≤ b) (progressSteps
        (process_media_files tid fmt g total 0 lastUpdateTime sched
          (initSt regs)).2.events)) := by
  constructor
  · intro tid fmt folders sched regs s hs
    have hb := bound_process_mixed_media_body tid fmt folders sched regs
    revert hs
    simp only [process_mixed_media]
    split
    · exact fun hs => hb s hs
    · exact fun hs => hb s hs
    · next e heq hne =>
      intro hs
      have hs' : s ∈ progressSteps
          ((process_mixed_media_body tid fmt folders sched
            (initSt regs)).2.events ++ [Ev.errorRaw tid (pyStr e)]) := hs
      rw [ps_append_errorRaw] at hs'
      exact hb s hs'
  · exact chain_process_media_files

unseal Rat.sub Rat.add Rat.mul Rat.inv Rat.ofScientific in
/-- C2 witness: the first counterexample run really carries a progress step
1 whose bound against the total of 3 the theorem delivers. -/
theorem progress_steps_bounded_witness :
    1 ∈ progressSteps c2run.events ∧
      1 ≤ totalUnitsOf
        [[⟨[UnitBody.mediaFile, UnitBody.mediaFile], GroupRemote.adSetCreated⟩],
          [⟨[UnitBody.mediaFile], GroupRemote.adSetCreated⟩]] := by
  have hm : 1 ∈ progressSteps c2run.events := by
    have h : progressSteps c2run.events = [0, 1, 2, 1, 3] := rfl
    rw [h]
    decide
  exact ⟨hm, progress_steps_bounded_and_group_monotone.1 "t1"
    AdFormat.singleImageOrVideo
    [[⟨[UnitBody.mediaFile, UnitBody.mediaFile], GroupRemote.adSetCreated⟩],
      [⟨[UnitBody.mediaFile], GroupRemote.adSetCreated⟩]] schedNoCancel
    startedRegs 1 hm⟩

unseal Rat.sub Rat.add Rat.mul Rat.inv Rat.ofScientific in
/-- C3 counterexample: two consecutive throttled emissions of the same task
0.1 seconds apart.  No call site of update_progress_media ever writes the
sampled time back into last_update_time (the variable is a local of the
enclosing process function, captured once and rebound nowhere), so both
calls compare against the task start time 0: at clock 0.6 and 0.7 both
pass the 0.5-second throttle and both events are emitted. -/
theorem throttled_emissions_closer_than_interval :
    (update_progress_media "t1" 2 2 0 schedClose
        (update_progress_media "t1" 2 1 0 schedClose
          (initSt startedRegs))).emitTimes =
      [(3 : ℚ)/5, (7 : ℚ)/10] ∧
    (7 : ℚ)/10 - (3 : ℚ)/5 < 1/2 :=
  ⟨rfl, by norm_num⟩

/-- C3: exact throttle semantics of one completed-unit recording in the
mixed-media path.  pbar.update(1) always advances the processed bar by one;
the throttled progress event (percent = processed/total*100, step =
processed) is emitted exactly when the sampled clock minus the
last_update_time the caller passed is at least 0.5 — but that reference
time is never updated on emission (the emitTimes log grows while the
parameter stays whatever the caller holds), and in the video path the
sibling update_progress always raises NameError instead (last_update_time
is not in any enclosing scope of it), so the claimed re-arming of the
throttle does not exist in either path. -/
theorem update_progress_media_throttle_spec (tid : TaskId) (total processed : Nat)
    (lastUpdateTime : ℚ) (sched : Sched) (st : OrchSt) :
    (update_progress_media tid total processed lastUpdateTime sched st).pbarN =
        st.pbarN + 1 ∧
    (sched.clock st.clockIdx - lastUpdateTime ≥ (0.5 : ℚ) →
      (update_progress_media tid total processed lastUpdateTime sched st).events =
          st.events ++
            [Ev.progress tid ((processed : ℚ) / (total : ℚ) * 100) processed total] ∧
      (update_progress_media tid total processed lastUpdateTime sched st).emitTimes =
          st.emitTimes ++ [sched.clock st.clockIdx]) ∧
    (¬ sched.clock st.clockIdx - lastUpdateTime ≥ (0.5 : ℚ) →
      (update_progress_media tid total processed lastUpdateTime sched st).events =
          st.events ∧
      (update_progress_media tid total processed lastUpdateTime sched st).emitTimes =
          st.emitTimes) ∧
    (∀ (sched2 : Sched) (st2 : OrchSt),
      (update_progress sched2 st2).1 =
        Except.error (PyErr.nameErr "last_update_time")) := by
  refine ⟨?_, ?_, ?_, fun sched2 st2 => rfl⟩
  · simp only [update_progress_media, emit_progress, timeNow]
    split
    · rfl
    · rfl
  · intro h
    simp only [update_progress_media, emit_progress, timeNow]
    split
    · exact ⟨rfl, rfl⟩
    · next hc => exact absurd h hc
  · intro h
    simp only [update_progress_media, emit_progress, timeNow]
    split
    · next hc => exact absurd hc h
    · exact ⟨rfl, rfl⟩

unseal Rat.sub Rat.add Rat.mul Rat.inv Rat.ofScientific in
/-- C3 witness: a recording at clock 1 against start time 0 passes the
throttle, emits the event and logs the emission time. -/
theorem update_progress_media_throttle_spec_witness :
    (update_progress_media "t3" 4 1 0 schedPlain (initSt startedRegs)).events =
      (initSt startedRegs).events ++
        [Ev.progress "t3" ((1 : ℚ) / (4 : ℚ) * 100) 1 4] ∧
    (update_progress_media "t3" 4 1 0 schedPlain (initSt startedRegs)).emitTimes =
      (initSt startedRegs).emitTimes ++
        [schedPlain.clock (initSt startedRegs).clockIdx] :=
  (update_progress_media_throttle_spec "t3" 4 1 0 schedPlain
    (initSt startedRegs)).2.1 (by decide)

end FBAds
